import Mathlib

/-
Verification development for the RustGame repository (a 2D side-scrolling
game engine).  The Rust sources are shallowly embedded:

* `f32` coordinate arithmetic is modelled exactly over `ℚ` (every operation
  the embedded code performs is an exact field operation on the modelled
  values); `f32::cos`/`f32::sin` are taken as explicit function parameters,
  since no claim depends on their values.
* `i32`/`u32`/`u8`/`usize` values are modelled as `ℤ`/`ℕ` with explicit
  two's-complement reduction where the code serializes them; operations the
  code only ever performs on in-range values are modelled directly.
* Fallible code paths (panics, failed `unwrap`s, out-of-range indexing)
  are modelled with `Option`, returning `none` where the program aborts.
* The `dyn Entity` trait objects of `src/engine/entity.rs` are modelled by
  `Ent`: an abstract private state (`ℕ`) together with the trait's method
  table.  `collide` receives a read-only view (`Snap`) of the other party,
  mirroring the `&dyn Entity` argument.  The collision pass additionally
  records the externally visible events (bounding-box comparisons and
  `collide` invocations) as a trace, so that theorems can speak about which
  callbacks were invoked.
-/

namespace RustGame

/-! ### Geometry: bounding boxes (engine/entity.rs `overlaps`, lines 82-87) -/

/-- An axis-aligned bounding box `(left, top, width, height)`, as returned by
`get_bounding_box`. -/
abbrev Box := ℚ × ℚ × ℚ × ℚ

/-- engine/entity.rs `overlaps`: the standard AABB overlap test
`x1 < x2 + w2 && x1 + w1 > x2 && y1 < y2 + h2 && y1 + h1 > y2`. -/
def Overlaps (a1 a2 : Box) : Prop :=
  let (x1, y1, w1, h1) := a1
  let (x2, y2, w2, h2) := a2
  x1 < x2 + w2 ∧ x1 + w1 > x2 ∧ y1 < y2 + h2 ∧ y1 + h1 > y2

instance (a1 a2 : Box) : Decidable (Overlaps a1 a2) := by
  unfold Overlaps
  exact inferInstance

/-! ### The entity object model (engine/entity.rs trait `Entity`) -/

/-- The read-only view of the other collision party that a `collide`
implementation can observe through its `&dyn Entity` argument (its private
state via `as_any` downcasting, and the trait accessors). -/
structure Snap where
  state : ℕ
  cls : ℕ
  mask : ℕ
  box : Box

/-- Externally visible events of the collision pass: a bounding-box
comparison of the entities at indices `i` and `j`, and an invocation
`entities[i].collide(entities[j])`. -/
inductive Event where
  | compare (i j : ℕ)
  | collide (i j : ℕ)
deriving DecidableEq, Repr

/-- A `Box<dyn Entity>`: a private state together with the `Entity` trait's
method table.  `boxFn`, `clsFn`, `maskFn`, `liveFn` model `get_bounding_box`,
`get_collision_class`, `get_collision_mask`, `is_live`; `collideFn` models
`collide` (returning the mutated private state); `updateFn` models `update`
(returning the mutated private state and the entities pushed onto the
`new_entities` output list).  The `d_t`, `buttons` and `tile_map` arguments
of `update` are fixed ambient values of a frame and are absorbed into the
behaviour. -/
inductive Ent : Type where
  | mk (state : ℕ)
       (boxFn : ℕ → Box)
       (clsFn : ℕ → ℕ)
       (maskFn : ℕ → ℕ)
       (liveFn : ℕ → Bool)
       (collideFn : ℕ → Snap → ℕ)
       (updateFn : ℕ → ℕ × List Ent)

def Ent.state : Ent → ℕ
  | .mk s _ _ _ _ _ _ => s

def Ent.boxFn : Ent → ℕ → Box
  | .mk _ b _ _ _ _ _ => b

def Ent.clsFn : Ent → ℕ → ℕ
  | .mk _ _ c _ _ _ _ => c

def Ent.maskFn : Ent → ℕ → ℕ
  | .mk _ _ _ m _ _ _ => m

def Ent.liveFn : Ent → ℕ → Bool
  | .mk _ _ _ _ l _ _ => l

def Ent.collideFn : Ent → ℕ → Snap → ℕ
  | .mk _ _ _ _ _ c _ => c

def Ent.updateFn : Ent → ℕ → ℕ × List Ent
  | .mk _ _ _ _ _ _ u => u

/-- Overwrite the private state (the effect of a `&mut self` method). -/
def Ent.setState : Ent → ℕ → Ent
  | .mk _ b c m l co u, s => .mk s b c m l co u

/-- `get_bounding_box()` on the current state. -/
def Ent.box (e : Ent) : Box := e.boxFn e.state

/-- `get_collision_class()` on the current state. -/
def Ent.cls (e : Ent) : ℕ := e.clsFn e.state

/-- `get_collision_mask()` on the current state. -/
def Ent.mask (e : Ent) : ℕ := e.maskFn e.state

/-- `is_live()` on the current state. -/
def Ent.live (e : Ent) : Bool := e.liveFn e.state

/-- The `&dyn Entity` view of an entity. -/
def Ent.snap (e : Ent) : Snap := ⟨e.state, e.cls, e.mask, e.box⟩

instance : Inhabited Ent :=
  ⟨.mk 0 (fun _ => (0, 0, 0, 0)) (fun _ => 0) (fun _ => 0) (fun _ => true)
     (fun s _ => s) (fun s => (s, []))⟩

/-! ### The collision pass (engine/entity.rs `handle_collisions`, lines 93-111)

The pass is index-faithful: the outer loop runs `i` over `0..len-1`, the
inner over `j = i+1..len`.  `b1` is the bounding box of entity `i` read once
before the inner loop (and not re-read even if a `collide` call mutates the
entity); `b2` and both mask/class reads happen per inner iteration; the
second direction's test reads entity `i` after the first direction's
`collide` has run, exactly as in the source. -/

/-- The state of entity `i` after the first direction's test: if
`e1.get_collision_mask() & e2.get_collision_class() != 0` then
`e1.collide(e2)` has mutated it, otherwise it is unchanged. -/
def firstCollide (es : List Ent) (i j : ℕ) : Ent :=
  if (es.getD i default).mask &&& (es.getD j default).cls ≠ 0 then
    (es.getD i default).setState
      ((es.getD i default).collideFn (es.getD i default).state
        (es.getD j default).snap)
  else es.getD i default

/-- The state of entity `j` after the second direction's test, which reads
entity `i` *after* the first direction's `collide` has run, exactly as the
source does. -/
def secondCollide (es : List Ent) (i j : ℕ) : Ent :=
  if (es.getD j default).mask &&& (firstCollide es i j).cls ≠ 0 then
    (es.getD j default).setState
      ((es.getD j default).collideFn (es.getD j default).state
        (firstCollide es i j).snap)
  else es.getD j default

/-- One inner-loop iteration for the pair `(i, j)` (cached box `b1`): if the
boxes overlap, run the two direction tests and record the invocations. -/
def innerStep (i : ℕ) (b1 : Box) (es : List Ent) (j : ℕ) : List Ent × List Event :=
  if Overlaps b1 (es.getD j default).box then
    (((es.set i (firstCollide es i j)).set j (secondCollide es i j)),
      Event.compare i j ::
        ((if (es.getD i default).mask &&& (es.getD j default).cls ≠ 0 then
            [Event.collide i j] else []) ++
         (if (es.getD j default).mask &&& (firstCollide es i j).cls ≠ 0 then
            [Event.collide j i] else [])))
  else
    (es, [Event.compare i j])

/-- The inner loop over the index list `js`. -/
def innerLoop (i : ℕ) (b1 : Box) : List Ent → List ℕ → List Ent × List Event
  | es, [] => (es, [])
  | es, j :: js =>
    let step := innerStep i b1 es j
    let rest := innerLoop i b1 step.1 js
    (rest.1, step.2 ++ rest.2)

/-- The outer loop over the index list `idxs` (entity count `n`). -/
def outerLoop : List Ent → List ℕ → ℕ → List Ent × List Event
  | es, [], _ => (es, [])
  | es, i :: idxs, n =>
    let b1 := (es.getD i default).box
    let inner := innerLoop i b1 es (List.range' (i + 1) (n - (i + 1)))
    let rest := outerLoop inner.1 idxs n
    (rest.1, inner.2 ++ rest.2)

/-- engine/entity.rs `handle_collisions`.  On an empty collection the source
computes `entities.len() - 1` on a `usize`, which underflows: the program
panics (directly in a debug build; via `split_at_mut(1)` on the empty vector
in a release build), modelled as `none`. -/
def handleCollisions (es : List Ent) : Option (List Ent × List Event) :=
  match es.length with
  | 0 => none
  | n + 1 => some (outerLoop es (List.range n) (n + 1))

/-! ### The frame protocol (engine/entity.rs `do_frame`, lines 58-80) -/

/-- The update pass: call `update` on every entity in order, accumulating the
`new_entities` output list. -/
def updatePass : List Ent → List Ent × List Ent
  | [] => ([], [])
  | e :: rest =>
    let u := e.updateFn e.state
    let tail := updatePass rest
    (e.setState u.1 :: tail.1, u.2 ++ tail.2)

/-- engine/entity.rs `do_frame`: collision pass, update pass, append the
spawned entities, prune with `retain(is_live)`.  The final draw pass only
writes to the render context and does not change the collection, so it is
not part of the returned state.  Alongside the resulting collection the
collision-pass event trace is returned. -/
def doFrame (es : List Ent) : Option (List Ent × List Event) :=
  match handleCollisions es with
  | none => none
  | some (es1, tr) =>
    let up := updatePass es1
    some ((up.1 ++ up.2).filter (fun e => e.live), tr)

/-! ### The game's `Player` entity (src/entity.rs, lines 145-397)

Only the state fields and the methods the claims are about (`is_live`,
`get_bounding_box`, `collide`) are embedded; `update` and `draw` (input
handling, physics and rendering) are not modelled. -/

structure Player where
  angle : ℚ
  posX : ℚ
  posY : ℚ
  bowDrawn : Bool
  bowDrawTime : ℚ
  facingLeft : Bool
  runFrame : ℕ
  isRunning : Bool
  onGround : Bool
  frameTime : ℚ
  yVec : ℚ
  lastJumpButton : Bool
  killed : Bool

/-- src/entity.rs lines 366-368: `is_live` is constantly `true`. -/
def Player.isLive (_p : Player) : Bool := true

/-- src/entity.rs lines 370-379: the torso box while alive, the wide, low
corpse silhouette once killed. -/
def Player.getBoundingBox (p : Player) : Box :=
  if p.killed then
    (p.posX - 32, p.posY + 40, 64, 14)
  else
    (p.posX - 5, p.posY - 5, 10, 15)

/-- src/entity.rs lines 389-392: `collide` marks the player killed
(the `other` argument is unused). -/
def Player.collide (p : Player) (_other : Snap) : Player :=
  { p with killed := true }

/-! ### Tile maps (engine/tilemap.rs) -/

def TILE_SIZE : ℤ := 64

def FLAG_SOLID : ℕ := 1

def FLAG_LADDER : ℕ := 2

/-- engine/tilemap.rs `TileMap`.  `tiles` and `tile_flags` are `u8` vectors;
the four `f32` atlas fields of an `atlas_coords` entry are represented by
their little-endian 4-byte bit patterns (a bijective representation, the
loader only moves them between bytes and values). -/
structure TileMap where
  width : ℤ
  height : ℤ
  tiles : List ℕ
  tileFlags : List ℕ
  atlasCoords : List (ℕ × ℕ × ℕ × ℕ × ℕ × ℕ × ℤ × ℤ)
  objects : List (List ℕ × ℤ × ℤ)
  playerStartX : ℤ
  playerStartY : ℤ

/-- engine/tilemap.rs `get_flags` (lines 143-154).  Out-of-bounds points
return flags `0`; inside the bounds both divisions act on non-negative
values, where Lean's integer division agrees with Rust's truncating `/`.
An index that escapes `tiles`/`tile_flags` is a Rust panic, hence `none`. -/
def TileMap.getFlags (tm : TileMap) (x y : ℤ) : Option ℕ :=
  if x < 0 ∨ y < 0 ∨ x ≥ tm.width * TILE_SIZE ∨ y ≥ tm.height * TILE_SIZE then
    some 0
  else
    match tm.tiles.get? ((y / TILE_SIZE * tm.width + x / TILE_SIZE).toNat) with
    | none => none
    | some 0 => some 0
    | some (t + 1) => tm.tileFlags.get? t

/-- engine/tilemap.rs `is_solid` (lines 135-137). -/
def TileMap.isSolid (tm : TileMap) (x y : ℤ) : Option Bool :=
  (tm.getFlags x y).map (fun f => decide (f &&& FLAG_SOLID ≠ 0))

/-- engine/tilemap.rs `is_ladder` (lines 139-141). -/
def TileMap.isLadder (tm : TileMap) (x y : ℤ) : Option Bool :=
  (tm.getFlags x y).map (fun f => decide (f &&& FLAG_LADDER ≠ 0))

/-- src/tilemap.rs `TileMap` (the earlier, flag-less tile map variant of the
same program, lines 23-27). -/
structure LegacyTileMap where
  tiles : List ℕ
  width : ℤ
  height : ℤ

/-- src/tilemap.rs `is_solid` (lines 59-65): out-of-bounds points are
*solid*, and any non-zero tile index is solid. -/
def LegacyTileMap.isSolid (tm : LegacyTileMap) (x y : ℤ) : Option Bool :=
  if x < 0 ∨ y < 0 ∨ x ≥ tm.width * TILE_SIZE ∨ y ≥ tm.height * TILE_SIZE then
    some true
  else
    (tm.tiles.get? ((y / TILE_SIZE * tm.width + x / TILE_SIZE).toNat)).map
      (fun t => decide (t ≠ 0))

/-! ### Camera scroll (engine/lib.rs lines 25-28 and 126-143) -/

def WINDOW_WIDTH : ℤ := 800

def WINDOW_HEIGHT : ℤ := 450

def LEFT_SCROLL_BOUNDARY : ℤ := WINDOW_WIDTH / 3

def RIGHT_SCROLL_BOUNDARY : ℤ := WINDOW_WIDTH * 2 / 3

def TOP_SCROLL_BOUNDARY : ℤ := WINDOW_HEIGHT / 3

def BOTTOM_SCROLL_BOUNDARY : ℤ := WINDOW_HEIGHT * 2 / 3

/-- engine/util.rs `Rect<i32>` (the tracked entity's bounding box as used by
the camera code). -/
structure Rect where
  left : ℤ
  top : ℤ
  width : ℤ
  height : ℤ

def Rect.right (r : Rect) : ℤ := r.left + r.width

def Rect.bottom (r : Rect) : ℤ := r.top + r.height

/-- engine/lib.rs lines 127-134: the per-frame x-scroll computation from the
tracked entity's rectangle. -/
def updateXScroll (xScroll maxXScroll : ℤ) (playerRect : Rect) : ℤ :=
  if playerRect.right > xScroll + RIGHT_SCROLL_BOUNDARY then
    min (playerRect.right - RIGHT_SCROLL_BOUNDARY) maxXScroll
  else if playerRect.left < xScroll + LEFT_SCROLL_BOUNDARY then
    max 0 (playerRect.left - LEFT_SCROLL_BOUNDARY)
  else
    xScroll

/-- engine/lib.rs lines 136-143: the per-frame y-scroll computation. -/
def updateYScroll (yScroll maxYScroll : ℤ) (playerRect : Rect) : ℤ :=
  if playerRect.bottom > yScroll + BOTTOM_SCROLL_BOUNDARY then
    min (playerRect.bottom - BOTTOM_SCROLL_BOUNDARY) maxYScroll
  else if playerRect.top < yScroll + TOP_SCROLL_BOUNDARY then
    max 0 (playerRect.top - TOP_SCROLL_BOUNDARY)
  else
    yScroll

/-! ### The sprite renderer (engine/gfx.rs `RenderContext::draw_image`,
lines 203-294)

Vertex coordinates are exact rationals; `f32::cos` and `f32::sin` are the
explicit parameters `fcos`/`fsin` (none of the verified properties depend on
their values).  GPU state (window, shaders, texture ids) is not part of the
batch model. -/

/-- The sprite descriptor tuple
`(f32, f32, f32, f32, u32, u32, i32, i32)`:
atlas left/top/right/bottom, pixel width/height, origin x/y. -/
structure SpriteInfo where
  atlasLeft : ℚ
  atlasTop : ℚ
  atlasRight : ℚ
  atlasBottom : ℚ
  width : ℕ
  height : ℕ
  originX : ℤ
  originY : ℤ

/-- The batching state of `RenderContext`: the per-frame vertex list (4
floats per vertex: position x/y, atlas u/v) and the camera offset. -/
structure RenderContext where
  vertices : List ℚ
  offset : ℤ × ℤ

/-- engine/gfx.rs `rotate` (lines 131-136): apply the 2×2 matrix
`(a, b, c, d)` to a point. -/
def rotatePoint (point : ℚ × ℚ) (matrix : ℚ × ℚ × ℚ × ℚ) : ℚ × ℚ :=
  (matrix.1 * point.1 + matrix.2.1 * point.2,
   matrix.2.2.1 * point.1 + matrix.2.2.2 * point.2)

/-- engine/gfx.rs `to_ogl_coord` (lines 270-276): pixel space to normalized
device coordinates. -/
def toOglCoord (pt : ℚ × ℚ) (position : ℤ × ℤ) : ℚ × ℚ :=
  (((pt.1 + (position.1 : ℚ)) / (WINDOW_WIDTH : ℚ)) * 2 - 1,
   1 - ((pt.2 + (position.2 : ℚ)) / (WINDOW_HEIGHT : ℚ)) * 2)

/-- engine/gfx.rs `RenderContext::draw_image`: append one sprite placement
(two triangles, 6 vertices) to the batch. -/
def RenderContext.drawImage (ctx : RenderContext) (fcos fsin : ℚ → ℚ)
    (position : ℤ × ℤ) (imageInfo : SpriteInfo) (rotation : ℚ)
    (flipH : Bool) : RenderContext :=
  let pos := (position.1 - ctx.offset.1, position.2 - ctx.offset.2)
  let lr := if flipH then (imageInfo.atlasRight, imageInfo.atlasLeft)
            else (imageInfo.atlasLeft, imageInfo.atlasRight)
  let atlasLeft := lr.1
  let atlasRight := lr.2
  let atlasTop := imageInfo.atlasTop
  let atlasBottom := imageInfo.atlasBottom
  let displayLeft : ℚ := -(imageInfo.originX : ℚ)
  let displayTop : ℚ := -(imageInfo.originY : ℚ)
  let displayRight : ℚ := displayLeft + (imageInfo.width : ℚ)
  let displayBottom : ℚ := displayTop + (imageInfo.height : ℚ)
  let corners :=
    if rotation = 0 then
      ((displayLeft, displayTop), (displayRight, displayTop),
       (displayLeft, displayBottom), (displayRight, displayBottom))
    else
      let crot := fcos rotation
      let srot := fsin rotation
      let rotmat := (crot, -srot, srot, crot)
      (rotatePoint (displayLeft, displayTop) rotmat,
       rotatePoint (displayRight, displayTop) rotmat,
       rotatePoint (displayLeft, displayBottom) rotmat,
       rotatePoint (displayRight, displayBottom) rotmat)
  let p0 := toOglCoord corners.1 pos
  let p1 := toOglCoord corners.2.1 pos
  let p2 := toOglCoord corners.2.2.1 pos
  let p3 := toOglCoord corners.2.2.2 pos
  { ctx with
    vertices := ctx.vertices ++
      [p0.1, p0.2, atlasLeft, atlasTop,
       p1.1, p1.2, atlasRight, atlasTop,
       p2.1, p2.2, atlasLeft, atlasBottom,
       p1.1, p1.2, atlasRight, atlasTop,
       p3.1, p3.2, atlasRight, atlasBottom,
       p2.1, p2.2, atlasLeft, atlasBottom] }

/-! ### The binary tile-map format

Writer: build_assets.rs `write_tile_map_file` (lines 272-334).
Reader: engine/tilemap.rs `TileMap::new` (lines 41-133).
Bytes are `ℕ` (u8 values); `f32` atlas fields travel as their 4-byte
little-endian bit patterns, represented by the `ℕ` value of those bytes
(`f32::to_le_bytes`/`from_le_bytes` are mutually inverse, so this is a
bijective representation of the floats). -/

/-- The 4 magic bytes `b"TMAP"`. -/
def MAGIC : List ℕ := [84, 77, 65, 80]

/-- `u32::to_le_bytes` (also how an `f32` bit pattern is laid out). -/
def encodeU32 (n : ℕ) : List ℕ :=
  [n % 256, n / 2 ^ 8 % 256, n / 2 ^ 16 % 256, n / 2 ^ 24 % 256]

/-- `i32::to_le_bytes` (two's complement). -/
def encodeI32 (v : ℤ) : List ℕ := encodeU32 ((v % 2 ^ 32).toNat)

/-- Little-endian value of a byte list (`u32::from_le_bytes` on 4 bytes). -/
def leVal (bs : List ℕ) : ℕ := bs.foldr (fun b acc => b + 256 * acc) 0

/-- `i32::from_le_bytes`: reinterpret a `u32` bit pattern as two's
complement. -/
def decodeI32bits (n : ℕ) : ℤ :=
  if n < 2 ^ 31 then (n : ℤ) else (n : ℤ) - 2 ^ 32

/-- `reader.read_exact` on an `n`-byte buffer: take exactly `n` bytes or
fail (the loader `unwrap`s the failure). -/
def readExact (n : ℕ) (bs : List ℕ) : Option (List ℕ × List ℕ) :=
  if n ≤ bs.length then some (bs.take n, bs.drop n) else none

/-- Read one little-endian `u32`. -/
def readU32 (bs : List ℕ) : Option (ℕ × List ℕ) :=
  (readExact 4 bs).map (fun p => (leVal p.1, p.2))

/-- Read one little-endian `i32`. -/
def readI32 (bs : List ℕ) : Option (ℤ × List ℕ) :=
  (readExact 4 bs).map (fun p => (decodeI32bits (leVal p.1), p.2))

/-- The atlas-coordinate loop of `TileMap::new` (lines 76-96): read four
`f32`s per tile type and extend them with
`(TILE_SIZE as u32, TILE_SIZE as u32, 0, 0)`. -/
def readAtlas : ℕ → List ℕ → Option (List (ℕ × ℕ × ℕ × ℕ × ℕ × ℕ × ℤ × ℤ) × List ℕ)
  | 0, bs => some ([], bs)
  | k + 1, bs => do
    let (l, bs) ← readU32 bs
    let (t, bs) ← readU32 bs
    let (r, bs) ← readU32 bs
    let (b, bs) ← readU32 bs
    let (rest, bs) ← readAtlas k bs
    some ((l, t, r, b, 64, 64, 0, 0) :: rest, bs)

/-- The object loop of `TileMap::new` (lines 106-121): a 32-byte name buffer
(the name is the prefix before the first NUL; no NUL is an `unwrap` panic),
then `x` and `y` as `i32`. -/
def readObjects : ℕ → List ℕ → Option (List (List ℕ × ℤ × ℤ) × List ℕ)
  | 0, bs => some ([], bs)
  | k + 1, bs => do
    let (nameBuf, bs) ← readExact 32 bs
    let pos ← nameBuf.findIdx? (· == 0)
    let name := nameBuf.take pos
    let (x, bs) ← readI32 bs
    let (y, bs) ← readI32 bs
    let (rest, bs) ← readObjects k bs
    some ((name, x, y) :: rest, bs)

/-- engine/tilemap.rs `TileMap::new`: parse the serialized tile map.  A
negative `num_tiles` or a negative `width * height` makes the source request
a `vec![0; v as usize]` with a wrapped-around 64-bit length, which aborts:
modelled as `none`. -/
def tileMapNew (bs : List ℕ) : Option TileMap := do
  let (magic, bs) ← readExact 4 bs
  if magic ≠ MAGIC then none else do
  let (width, bs) ← readI32 bs
  let (height, bs) ← readI32 bs
  let (playerStartX, bs) ← readI32 bs
  let (playerStartY, bs) ← readI32 bs
  let (numTiles, bs) ← readI32 bs
  if numTiles < 0 then none else do
  let (atlasCoords, bs) ← readAtlas numTiles.toNat bs
  let (tileFlags, bs) ← readExact numTiles.toNat bs
  if width * height < 0 then none else do
  let (tiles, bs) ← readExact (width * height).toNat bs
  let (numObjects, bs) ← readU32 bs
  let (objects, _) ← readObjects numObjects bs
  some { width := width, height := height, tiles := tiles,
         tileFlags := tileFlags, atlasCoords := atlasCoords,
         objects := objects, playerStartX := playerStartX,
         playerStartY := playerStartY }

/-- build_assets.rs `TileMapInfo` (lines 36-47; `source_path` only names the
output file and is not serialized).  Object names are byte lists (the
`String` names serialize through `as_bytes`); image paths are abstract
identifiers used as keys into the packed-atlas coordinate table. -/
structure TileMapInfo where
  width : ℤ
  height : ℤ
  tileData : List ℕ
  imagePaths : List ℕ
  tileFlags : List ℕ
  objects : List (List ℕ × ℤ × ℤ)
  playerStartX : ℤ
  playerStartY : ℤ

/-- The atlas-rect loop of `write_tile_map_file` (lines 303-314): for each
image path, look its rectangle up in `image_coordinates` (the source
`assert!`s the key is present — a missing key is `none`) and write the four
`f32` fields. -/
def writeAtlasRects (paths : List ℕ) (coords : List (ℕ × ℕ × ℕ × ℕ × ℕ)) :
    Option (List ℕ) :=
  match paths with
  | [] => some []
  | p :: rest =>
    match coords.find? (fun c => c.1 == p) with
    | none => none
    | some (_, l, t, r, b) =>
      (writeAtlasRects rest coords).map
        (fun tail => encodeU32 l ++ encodeU32 t ++ encodeU32 r ++ encodeU32 b ++ tail)

/-- The object loop of `write_tile_map_file` (lines 325-331): a 32-byte
zero-padded name (`name_temp[..name.len()]` panics when the name exceeds 32
bytes — `none`), then `x` and `y`. -/
def writeObjectList (objs : List (List ℕ × ℤ × ℤ)) : Option (List ℕ) :=
  match objs with
  | [] => some []
  | (name, x, y) :: rest =>
    if name.length ≤ 32 then
      (writeObjectList rest).map
        (fun tail =>
          (name ++ List.replicate (32 - name.length) 0) ++
            encodeI32 x ++ encodeI32 y ++ tail)
    else none

/-- build_assets.rs `write_tile_map_file`: serialize a tile-map model. -/
def writeTileMapFile (info : TileMapInfo) (coords : List (ℕ × ℕ × ℕ × ℕ × ℕ)) :
    Option (List ℕ) := do
  let atlasBytes ← writeAtlasRects info.imagePaths coords
  let objectBytes ← writeObjectList info.objects
  some (MAGIC ++ encodeI32 info.width ++ encodeI32 info.height ++
    encodeI32 info.playerStartX ++ encodeI32 info.playerStartY ++
    encodeU32 info.imagePaths.length ++ atlasBytes ++
    info.tileFlags ++ info.tileData ++
    encodeU32 info.objects.length ++ objectBytes)

/-- The atlas coordinates the loader should reconstruct: each image path's
rectangle from the coordinate table, extended the way `TileMap::new` extends
it. -/
def resolveAtlas (paths : List ℕ) (coords : List (ℕ × ℕ × ℕ × ℕ × ℕ)) :
    Option (List (ℕ × ℕ × ℕ × ℕ × ℕ × ℕ × ℤ × ℤ)) :=
  match paths with
  | [] => some []
  | p :: rest =>
    match coords.find? (fun c => c.1 == p) with
    | none => none
    | some (_, l, t, r, b) =>
      (resolveAtlas rest coords).map (fun tail => (l, t, r, b, 64, 64, 0, 0) :: tail)

/-! ### Collision-attribute stability

`collide` implementations mutate private state.  `StableAttrs` says an
entity's collision attributes (bounding box, class, mask) are unchanged by
its own `collide` — true of the engine's `Arrow` (which only sets a
`collided` liveness flag), false of `Player` (whose box widens to the corpse
silhouette once `killed`). -/

def StableAttrs (e : Ent) : Prop :=
  ∀ s snap,
    e.boxFn (e.collideFn s snap) = e.boxFn s ∧
    e.clsFn (e.collideFn s snap) = e.clsFn s ∧
    e.maskFn (e.collideFn s snap) = e.maskFn s

/-- Every position of the list (including the out-of-range default) holds a
collision-attribute-stable entity. -/
def AllStable (es : List Ent) : Prop :=
  ∀ k : ℕ, StableAttrs (es.getD k default)

/-- `es` has the same length as `es0` and presents the same collision
attributes at every position. -/
def SameAttrs (es0 es : List Ent) : Prop :=
  es.length = es0.length ∧
  ∀ k : ℕ,
    (es.getD k default).box = (es0.getD k default).box ∧
    (es.getD k default).cls = (es0.getD k default).cls ∧
    (es.getD k default).mask = (es0.getD k default).mask

/-- `es` arises from `es0` by overwriting some private states only: every
position holds the original entity with (possibly) a new state, so all
method tables are untouched. -/
def SetOnly (es0 es : List Ent) : Prop :=
  es.length = es0.length ∧
  ∀ k : ℕ, ∃ s, es.getD k default = (es0.getD k default).setState s

/-- The events one inner-loop iteration of the collision pass produces for
the pair `(i, j)`, computed from the initial attributes (`b1` is the cached
outer box). -/
def pureEvents (es0 : List Ent) (b1 : Box) (i j : ℕ) : List Event :=
  Event.compare i j ::
    (if Overlaps b1 (es0.getD j default).box then
      (if (es0.getD i default).mask &&& (es0.getD j default).cls ≠ 0 then
        [Event.collide i j] else []) ++
      (if (es0.getD j default).mask &&& (es0.getD i default).cls ≠ 0 then
        [Event.collide j i] else [])
    else [])

/-- The full collision-pass trace computed from the initial attributes. -/
def pureTrace (es0 : List Ent) : List Event :=
  ((List.range (es0.length - 1)).map (fun i =>
    ((List.range' (i + 1) (es0.length - (i + 1))).map
      (pureEvents es0 (es0.getD i default).box i)).flatten)).flatten

/-! ### Concrete instances used by witnesses and counterexamples -/

/-- An entity with class 1, mask 2, box at the origin, state-preserving
`collide` (the end-to-end scenario-2 pair, first member). -/
def symE1 : Ent :=
  .mk 0 (fun _ => (0, 0, 10, 10)) (fun _ => 1) (fun _ => 2) (fun _ => true)
    (fun s _ => s) (fun s => (s, []))

/-- The scenario-2 pair's second member: class 2, mask 1, overlapping box. -/
def symE2 : Ent :=
  .mk 0 (fun _ => (5, 5, 10, 10)) (fun _ => 2) (fun _ => 1) (fun _ => true)
    (fun s _ => s) (fun s => (s, []))

/-- An `Arrow`-like entity: class `COLL_MISSILE = 1`, mask `!COLL_MISSILE =
0xFFFFFFFE`, constant tip box, `collide` sets a `collided` flag that does
not affect the box. -/
def cexArrow1 : Ent :=
  .mk 0 (fun _ => (98, 96, 4, 4)) (fun _ => 1) (fun _ => 4294967294)
    (fun _ => true) (fun _ _ => 1) (fun s => (s, []))

/-- A second arrow at the same spot. -/
def cexArrow2 : Ent :=
  .mk 0 (fun _ => (98, 96, 4, 4)) (fun _ => 1) (fun _ => 4294967294)
    (fun _ => true) (fun _ _ => 1) (fun s => (s, []))

/-- A `Player`-like entity: class `COLL_PLAYER = 2`, mask `!COLL_PLAYER =
0xFFFFFFFD`; `collide` marks it killed (state 1), switching its bounding box
from the torso box to the corpse silhouette, as `Player::get_bounding_box`
does at position (100, 100). -/
def cexPlayer : Ent :=
  .mk 0 (fun s => if s = 0 then (95, 95, 10, 15) else (68, 140, 64, 14))
    (fun _ => 2) (fun _ => 4294967293) (fun _ => true) (fun _ _ => 1)
    (fun s => (s, []))

/-- The entity spawned during the C2 scenario: live, spawns nothing. -/
def c2spawn : Ent :=
  .mk 0 (fun _ => (0, 0, 1, 1)) (fun _ => 0) (fun _ => 0) (fun _ => true)
    (fun s _ => s) (fun s => (s, []))

/-- The C2 scenario entity: its `update` pushes `c2spawn` onto the spawn
list and its `is_live` then reports `false`. -/
def c2dying : Ent :=
  .mk 0 (fun _ => (0, 0, 1, 1)) (fun _ => 0) (fun _ => 0) (fun _ => false)
    (fun s _ => s) (fun s => (s, [c2spawn]))

/-- The end-to-end scenario-1 map: 4×1 tiles, only cell (0,0) holds tile
type 1, whose flags are `solid`. -/
def c3map : TileMap :=
  { width := 4, height := 1, tiles := [1, 0, 0, 0], tileFlags := [1],
    atlasCoords := [], objects := [], playerStartX := 0, playerStartY := 0 }

/-- A 1×1 engine tile map with an empty cell. -/
def c4engineMap : TileMap :=
  { width := 1, height := 1, tiles := [0], tileFlags := [],
    atlasCoords := [], objects := [], playerStartX := 0, playerStartY := 0 }

/-- The same 1×1 empty grid as a legacy (src/tilemap.rs) map. -/
def c4legacyMap : LegacyTileMap :=
  { tiles := [0], width := 1, height := 1 }

/-- A 2×2 map exercising both tile lookups and the flags lookup. -/
def c9map : TileMap :=
  { width := 2, height := 2, tiles := [1, 0, 0, 2], tileFlags := [1, 2],
    atlasCoords := [], objects := [], playerStartX := 0, playerStartY := 0 }

/-- A small tile-map model for the serialization round trip: 2×1 grid, one
tile type, one object named "BAL" at (5, -3). -/
def c7info : TileMapInfo :=
  { width := 2, height := 1, tileData := [1, 0], imagePaths := [7],
    tileFlags := [1], objects := [([66, 65, 76], 5, -3)],
    playerStartX := 64, playerStartY := 0 }

/-- The packed-atlas coordinate table for `c7info`. -/
def c7coords : List (ℕ × ℕ × ℕ × ℕ × ℕ) := [(7, 11, 22, 33, 44)]

/-! ## Theorems -/

/-! ### Small facts about the entity accessors -/

theorem Ent.setState_state (e : Ent) (s : ℕ) : (e.setState s).state = s := by
  cases e; rfl

theorem Ent.setState_boxFn (e : Ent) (s : ℕ) : (e.setState s).boxFn = e.boxFn := by
  cases e; rfl

theorem Ent.setState_clsFn (e : Ent) (s : ℕ) : (e.setState s).clsFn = e.clsFn := by
  cases e; rfl

theorem Ent.setState_maskFn (e : Ent) (s : ℕ) : (e.setState s).maskFn = e.maskFn := by
  cases e; rfl

theorem Ent.setState_liveFn (e : Ent) (s : ℕ) : (e.setState s).liveFn = e.liveFn := by
  cases e; rfl

theorem Ent.setState_collideFn (e : Ent) (s : ℕ) :
    (e.setState s).collideFn = e.collideFn := by
  cases e; rfl

theorem Ent.setState_updateFn (e : Ent) (s : ℕ) :
    (e.setState s).updateFn = e.updateFn := by
  cases e; rfl

theorem Ent.setState_setState (e : Ent) (s s' : ℕ) :
    (e.setState s).setState s' = e.setState s' := by
  cases e; rfl

theorem Ent.setState_self (e : Ent) : e.setState e.state = e := by
  cases e; rfl

/-- C10: The player's `is_live` is constantly `true`, so the pruning filter
keeps every player; its `collide` marks it killed, after which
`get_bounding_box` answers the wide, low corpse silhouette
`(pos_x - 32, pos_y + 40, 64, 14)` instead of the torso box
`(pos_x - 5, pos_y - 5, 10, 15)`, so later collisions still see a box. -/
theorem player_is_live_always_corpse_box :
    ∀ (p : Player) (o : Snap) (ps : List Player),
      p.isLive = true ∧
      (p.collide o).isLive = true ∧
      (p.collide o).killed = true ∧
      ps.filter (fun q => q.isLive) = ps ∧
      (p.collide o).getBoundingBox = (p.posX - 32, p.posY + 40, 64, 14) ∧
      ({ p with killed := false } : Player).getBoundingBox =
        (p.posX - 5, p.posY - 5, 10, 15) := by
  intro p o ps
  refine ⟨rfl, rfl, rfl, ?_, ?_, ?_⟩
  · exact List.filter_eq_self.mpr (fun a _ => rfl)
  · simp [Player.collide, Player.getBoundingBox]
  · simp [Player.getBoundingBox]

/-- C5: the collision pass on a singleton collection is a no-op with no
comparisons and no `collide` calls, but on the empty collection the source
underflows `entities.len() - 1 : usize` and panics instead of being a safe
no-op. -/
theorem handle_collisions_empty_singleton :
    handleCollisions ([] : List Ent) = none ∧
    ∀ e : Ent, handleCollisions [e] = some ([e], []) := by
  exact ⟨rfl, fun e => rfl⟩

/-- C4 (counterexample): the two tile-query implementations disagree on the
out-of-bounds policy at the same out-of-bounds point of the same 1×1 grid:
the engine map answers non-solid, the legacy map answers solid. -/
theorem oob_policy_counterexample :
    c4engineMap.isSolid (-1) 0 = some false ∧
    c4legacyMap.isSolid (-1) 0 = some true := by
  exact ⟨rfl, rfl⟩

/-- C4 (amended): each implementation applies its own out-of-bounds policy
uniformly: `engine/tilemap.rs` treats every out-of-bounds point as flags 0
(non-solid, non-ladder), while `src/tilemap.rs` treats every out-of-bounds
point as solid. -/
theorem oob_policy_per_implementation :
    (∀ (tm : TileMap) (x y : ℤ),
      (x < 0 ∨ y < 0 ∨ x ≥ tm.width * TILE_SIZE ∨ y ≥ tm.height * TILE_SIZE) →
      tm.getFlags x y = some 0 ∧ tm.isSolid x y = some false ∧
        tm.isLadder x y = some false) ∧
    (∀ (tm : LegacyTileMap) (x y : ℤ),
      (x < 0 ∨ y < 0 ∨ x ≥ tm.width * TILE_SIZE ∨ y ≥ tm.height * TILE_SIZE) →
      tm.isSolid x y = some true) := by
  constructor
  · intro tm x y h
    have hf : tm.getFlags x y = some 0 := by
      unfold TileMap.getFlags
      rw [if_pos h]
    refine ⟨hf, ?_, ?_⟩
    · unfold TileMap.isSolid
      rw [hf]
      rfl
    · unfold TileMap.isLadder
      rw [hf]
      rfl
  · intro tm x y h
    unfold LegacyTileMap.isSolid
    rw [if_pos h]

theorem oob_policy_per_implementation_witness :
    ((-5 : ℤ) < 0 ∨ (3 : ℤ) < 0 ∨ (-5 : ℤ) ≥ c4engineMap.width * TILE_SIZE ∨
      (3 : ℤ) ≥ c4engineMap.height * TILE_SIZE) ∧
    c4engineMap.isSolid (-5) 3 = some false ∧
    ((64 : ℤ) < 0 ∨ (0 : ℤ) < 0 ∨ (64 : ℤ) ≥ c4legacyMap.width * TILE_SIZE ∨
      (0 : ℤ) ≥ c4legacyMap.height * TILE_SIZE) ∧
    c4legacyMap.isSolid 64 0 = some true := by
  refine ⟨by decide, ?_, by decide, ?_⟩
  · exact (oob_policy_per_implementation.1 c4engineMap (-5) 3 (by decide)).2.1
  · exact oob_policy_per_implementation.2 c4legacyMap 64 0 (by decide)

/-- C6: one frame of the camera-scroll computation keeps each scroll value
inside `[0, max_scroll]`, for every position of the tracked entity's
rectangle, as long as it starts inside (which the initial scroll 0 does,
given a map at least as large as the viewport). -/
theorem scroll_stays_clamped (xScroll yScroll maxXScroll maxYScroll : ℤ)
    (playerRect : Rect)
    (hmx : 0 ≤ maxXScroll) (hmy : 0 ≤ maxYScroll)
    (hx0 : 0 ≤ xScroll) (hx1 : xScroll ≤ maxXScroll)
    (hy0 : 0 ≤ yScroll) (hy1 : yScroll ≤ maxYScroll) :
    0 ≤ updateXScroll xScroll maxXScroll playerRect ∧
    updateXScroll xScroll maxXScroll playerRect ≤ maxXScroll ∧
    0 ≤ updateYScroll yScroll maxYScroll playerRect ∧
    updateYScroll yScroll maxYScroll playerRect ≤ maxYScroll := by
  unfold updateXScroll updateYScroll Rect.right Rect.bottom
    RIGHT_SCROLL_BOUNDARY LEFT_SCROLL_BOUNDARY BOTTOM_SCROLL_BOUNDARY
    TOP_SCROLL_BOUNDARY WINDOW_WIDTH WINDOW_HEIGHT
  refine ⟨?_, ?_, ?_, ?_⟩ <;> split_ifs <;> omega

theorem scroll_stays_clamped_witness :
    0 ≤ updateXScroll 0 1760 ⟨999999, -777777, 66, 92⟩ ∧
    updateXScroll 0 1760 ⟨999999, -777777, 66, 92⟩ ≤ 1760 ∧
    0 ≤ updateYScroll 830 830 ⟨999999, -777777, 66, 92⟩ ∧
    updateYScroll 830 830 ⟨999999, -777777, 66, 92⟩ ≤ 830 :=
  scroll_stays_clamped 0 830 1760 830 ⟨999999, -777777, 66, 92⟩
    (by decide) (by decide) (by decide) (by decide) (by decide) (by decide)

/-- Testing a single-bit mask with `&` is testing that bit. -/
theorem decide_land_two_pow (f i : ℕ) : decide (f &&& 2 ^ i ≠ 0) = f.testBit i := by
  rw [Nat.and_two_pow]
  cases h : f.testBit i <;> simp [h]

/-- C3: for points strictly inside the map bounds, `is_solid` answers
exactly bit 0 (and `is_ladder` exactly bit 1) of the flags of the tile type
stored at `tiles[row*width+col]` with `row = y/tile_size`,
`col = x/tile_size`; when that cell holds tile index 0 both queries answer
`false`. -/
theorem is_solid_matches_cell_flags (tm : TileMap) (x y : ℤ)
    (hx0 : 0 ≤ x) (hxw : x < tm.width * TILE_SIZE)
    (hy0 : 0 ≤ y) (hyh : y < tm.height * TILE_SIZE) (t : ℕ)
    (ht : tm.tiles.get? ((y / TILE_SIZE * tm.width + x / TILE_SIZE).toNat) = some t) :
    (t = 0 → tm.isSolid x y = some false ∧ tm.isLadder x y = some false) ∧
    (t ≠ 0 →
      tm.isSolid x y = (tm.tileFlags.get? (t - 1)).map (fun f => f.testBit 0) ∧
      tm.isLadder x y = (tm.tileFlags.get? (t - 1)).map (fun f => f.testBit 1)) := by
  have hcond : ¬(x < 0 ∨ y < 0 ∨ x ≥ tm.width * TILE_SIZE ∨
      y ≥ tm.height * TILE_SIZE) := by
    push_neg
    exact ⟨by omega, by omega, hxw, hyh⟩
  have hflags : tm.getFlags x y =
      match tm.tiles.get? ((y / TILE_SIZE * tm.width + x / TILE_SIZE).toNat) with
      | none => none
      | some 0 => some 0
      | some (u + 1) => tm.tileFlags.get? u := by
    unfold TileMap.getFlags
    rw [if_neg hcond]
  rw [ht] at hflags
  constructor
  · rintro rfl
    constructor
    · unfold TileMap.isSolid
      rw [hflags]
      rfl
    · unfold TileMap.isLadder
      rw [hflags]
      rfl
  · intro h0
    obtain ⟨u, rfl⟩ : ∃ u, t = u + 1 := ⟨t - 1, by omega⟩
    have hflags' : tm.getFlags x y = tm.tileFlags.get? u := hflags
    constructor
    · unfold TileMap.isSolid
      rw [hflags', Nat.add_sub_cancel]
      cases hfv : tm.tileFlags.get? u with
      | none => rfl
      | some f =>
        simp only [Option.map_some']
        exact congrArg some (by
          rw [show FLAG_SOLID = 2 ^ 0 from rfl]
          exact decide_land_two_pow f 0)
    · unfold TileMap.isLadder
      rw [hflags', Nat.add_sub_cancel]
      cases hfv : tm.tileFlags.get? u with
      | none => rfl
      | some f =>
        simp only [Option.map_some']
        exact congrArg some (by
          rw [show FLAG_LADDER = 2 ^ 1 from rfl]
          exact decide_land_two_pow f 1)

theorem is_solid_matches_cell_flags_witness :
    c3map.isSolid 32 32 = some true ∧ c3map.isSolid 96 32 = some false := by
  have h1 := (is_solid_matches_cell_flags c3map 32 32 (by decide) (by decide)
    (by decide) (by decide) 1 (by rfl)).2 (by decide)
  have h2 := (is_solid_matches_cell_flags c3map 96 32 (by decide) (by decide)
    (by decide) (by decide) 0 (by rfl)).1 rfl
  exact ⟨by rw [h1.1]; rfl, h2.1⟩

/-- C9: under the load-time invariant (`tiles` holds `width*height` cells and
every non-zero tile value `v` has `v-1` inside `tile_flags`), `get_flags`
— and hence `is_solid`/`is_ladder` — produces an answer for every integer
point: no index ever escapes `tiles` or `tile_flags`. -/
theorem get_flags_never_out_of_range (tm : TileMap)
    (hlen : tm.tiles.length = (tm.width * tm.height).toNat)
    (hflags : ∀ t ∈ tm.tiles, t ≠ 0 → t - 1 < tm.tileFlags.length) :
    ∀ x y : ℤ, (tm.getFlags x y).isSome := by
  intro x y
  unfold TileMap.getFlags
  split_ifs with h
  · rfl
  · push_neg at h
    obtain ⟨hx0, hy0, hxw, hyh⟩ := h
    have hw : 0 < tm.width := by
      unfold TILE_SIZE at hxw
      omega
    have hh : 0 < tm.height := by
      unfold TILE_SIZE at hyh
      omega
    have hr0 : 0 ≤ y / TILE_SIZE := by
      unfold TILE_SIZE
      omega
    have hrh : y / TILE_SIZE < tm.height := by
      unfold TILE_SIZE at *
      omega
    have hc0 : 0 ≤ x / TILE_SIZE := by
      unfold TILE_SIZE
      omega
    have hcw : x / TILE_SIZE < tm.width := by
      unfold TILE_SIZE at *
      omega
    have h1 : y / TILE_SIZE * tm.width ≤ (tm.height - 1) * tm.width :=
      mul_le_mul_of_nonneg_right (by omega) (by omega)
    rw [sub_one_mul] at h1
    have hidx : y / TILE_SIZE * tm.width + x / TILE_SIZE < tm.width * tm.height := by
      have hcomm : tm.height * tm.width = tm.width * tm.height := mul_comm _ _
      linarith
    have hnn : 0 ≤ y / TILE_SIZE * tm.width + x / TILE_SIZE := by
      have := mul_nonneg hr0 (le_of_lt hw)
      linarith
    have hidxN : (y / TILE_SIZE * tm.width + x / TILE_SIZE).toNat < tm.tiles.length := by
      rw [hlen]
      rw [Int.toNat_lt' (by omega)]
      · omega
    rw [List.get?_eq_get hidxN]
    cases hv : tm.tiles.get ⟨_, hidxN⟩ with
    | zero => rfl
    | succ u =>
      have hmem : u + 1 ∈ tm.tiles := by
        rw [← hv]
        exact List.get_mem _ _ _
      have hu : u < tm.tileFlags.length := by
        have := hflags _ hmem (by omega)
        omega
      show (tm.tileFlags.get? u).isSome = true
      rw [List.get?_eq_get hu]
      rfl

theorem get_flags_never_out_of_range_witness :
    (c9map.getFlags (-7) 1000).isSome = true :=
  get_flags_never_out_of_range c9map (by decide) (by decide) (-7) 1000

/-- C8: `draw_image` appends exactly 6 vertices — the two clockwise
triangles top-left/top-right/bottom-left and top-right/bottom-right/
bottom-left — to the batch, and flipping horizontally yields the same 6
vertex positions with only the left and right atlas U-coordinates
swapped. -/
theorem draw_image_six_vertices_flip_swaps_u (fcos fsin : ℚ → ℚ)
    (ctx : RenderContext) (position : ℤ × ℤ) (info : SpriteInfo)
    (rotation : ℚ) :
    ∃ p0 p1 p2 p3 : ℚ × ℚ,
      (ctx.drawImage fcos fsin position info rotation false).vertices =
        ctx.vertices ++
          [p0.1, p0.2, info.atlasLeft, info.atlasTop,
           p1.1, p1.2, info.atlasRight, info.atlasTop,
           p2.1, p2.2, info.atlasLeft, info.atlasBottom,
           p1.1, p1.2, info.atlasRight, info.atlasTop,
           p3.1, p3.2, info.atlasRight, info.atlasBottom,
           p2.1, p2.2, info.atlasLeft, info.atlasBottom] ∧
      (ctx.drawImage fcos fsin position info rotation true).vertices =
        ctx.vertices ++
          [p0.1, p0.2, info.atlasRight, info.atlasTop,
           p1.1, p1.2, info.atlasLeft, info.atlasTop,
           p2.1, p2.2, info.atlasRight, info.atlasBottom,
           p1.1, p1.2, info.atlasLeft, info.atlasTop,
           p3.1, p3.2, info.atlasLeft, info.atlasBottom,
           p2.1, p2.2, info.atlasRight, info.atlasBottom] := by
  unfold RenderContext.drawImage
  by_cases h : rotation = 0 <;>
    simp only [h, if_true, if_false, ite_true, ite_false, Bool.false_eq_true,
      reduceIte] <;>
    exact ⟨_, _, _, _, rfl, rfl⟩

/-! ### Index bookkeeping for `List.set`/`List.getD` -/

theorem getD_set_lt (l : List Ent) (k : ℕ) (e : Ent) (h : k < l.length) :
    (l.set k e).getD k default = e := by
  rw [List.getD_eq_get?, List.get?_set_eq_of_lt _ h]
  rfl

theorem getD_set_ne (l : List Ent) (k m : ℕ) (e : Ent) (h : k ≠ m) :
    (l.set k e).getD m default = l.getD m default := by
  rw [List.getD_eq_get?, List.get?_set_ne _ _ h, ← List.getD_eq_get?]

theorem getD_set_ge (l : List Ent) (k : ℕ) (e : Ent) (h : l.length ≤ k) :
    (l.set k e).getD k default = l.getD k default := by
  rw [List.set_eq_of_length_le h]

theorem getD_of_lt (l : List Ent) (k : ℕ) (h : k < l.length) :
    l.getD k default = l.get ⟨k, h⟩ := by
  rw [List.getD_eq_get?, List.get?_eq_get h]
  rfl

theorem getD_mem_of_lt (l : List Ent) (k : ℕ) (h : k < l.length) :
    l.getD k default ∈ l := by
  rw [getD_of_lt l k h]
  exact List.get_mem _ _ _

/-! ### Stability bookkeeping -/

theorem default_stableAttrs : StableAttrs (default : Ent) :=
  fun _ _ => ⟨rfl, rfl, rfl⟩

theorem stableAttrs_setState (e : Ent) (h : StableAttrs e) (s : ℕ) :
    StableAttrs (e.setState s) := by
  intro s' snap
  rw [Ent.setState_boxFn, Ent.setState_clsFn, Ent.setState_maskFn,
    Ent.setState_collideFn]
  exact h s' snap

theorem allStable_of_mem (es : List Ent) (h : ∀ e ∈ es, StableAttrs e) :
    AllStable es := by
  intro k
  by_cases hk : k < es.length
  · exact h _ (getD_mem_of_lt es k hk)
  · rw [List.getD_eq_get?, List.get?_eq_none.mpr (by omega)]
    exact default_stableAttrs

theorem allStable_set (es : List Ent) (h : AllStable es) (k : ℕ) (e : Ent)
    (he : StableAttrs e) : AllStable (es.set k e) := by
  intro m
  by_cases hm : k = m
  · subst hm
    by_cases hk : k < es.length
    · rw [getD_set_lt _ _ _ hk]
      exact he
    · rw [getD_set_ge _ _ _ (by omega)]
      exact h k
  · rw [getD_set_ne _ _ _ _ hm]
    exact h m

/-- The attributes of a stable entity are unchanged by running its
`collide`. -/
theorem setState_collide_attrs (e : Ent) (h : StableAttrs e) (snap : Snap) :
    (e.setState (e.collideFn e.state snap)).box = e.box ∧
    (e.setState (e.collideFn e.state snap)).cls = e.cls ∧
    (e.setState (e.collideFn e.state snap)).mask = e.mask := by
  obtain ⟨h1, h2, h3⟩ := h e.state snap
  unfold Ent.box Ent.cls Ent.mask
  rw [Ent.setState_boxFn, Ent.setState_clsFn, Ent.setState_maskFn,
    Ent.setState_state, h1, h2, h3]
  exact ⟨rfl, rfl, rfl⟩

theorem sameAttrs_refl (es : List Ent) : SameAttrs es es :=
  ⟨rfl, fun _ => ⟨rfl, rfl, rfl⟩⟩

/-- Replacing position `k` with an entity presenting the same attributes
preserves `SameAttrs`. -/
theorem sameAttrs_set (es0 es : List Ent) (hsa : SameAttrs es0 es) (k : ℕ)
    (e : Ent) (hbox : e.box = (es.getD k default).box)
    (hcls : e.cls = (es.getD k default).cls)
    (hmask : e.mask = (es.getD k default).mask) :
    SameAttrs es0 (es.set k e) := by
  obtain ⟨hlen, hattrs⟩ := hsa
  refine ⟨by simpa using hlen, fun m => ?_⟩
  by_cases hm : k = m
  · subst hm
    by_cases hk : k < es.length
    · rw [getD_set_lt _ _ _ hk]
      obtain ⟨b, c, d⟩ := hattrs k
      exact ⟨hbox.trans b, hcls.trans c, hmask.trans d⟩
    · rw [getD_set_ge _ _ _ (by omega)]
      exact hattrs k
  · rw [getD_set_ne _ _ _ _ hm]
    exact hattrs m

/-- One inner-loop iteration on a list presenting the initial attributes,
all of whose entities are stable, keeps presenting the initial attributes,
stays stable, and emits exactly the events determined by the initial
attributes. -/
theorem innerStep_spec (es0 es : List Ent) (hsa : SameAttrs es0 es)
    (hst : AllStable es) (i j : ℕ) (b1 : Box) (hij : i ≠ j) :
    SameAttrs es0 ((innerStep i b1 es j).1) ∧
    AllStable ((innerStep i b1 es j).1) ∧
    (innerStep i b1 es j).2 = pureEvents es0 b1 i j := by
  obtain ⟨hbi, hci, hmi⟩ := hsa.2 i
  obtain ⟨hbj, hcj, hmj⟩ := hsa.2 j
  have hfc : (firstCollide es i j).box = (es.getD i default).box ∧
      (firstCollide es i j).cls = (es.getD i default).cls ∧
      (firstCollide es i j).mask = (es.getD i default).mask := by
    unfold firstCollide
    split_ifs with h1
    · exact setState_collide_attrs _ (hst i) _
    · exact ⟨rfl, rfl, rfl⟩
  have hfcStable : StableAttrs (firstCollide es i j) := by
    unfold firstCollide
    split_ifs with h1
    · exact stableAttrs_setState _ (hst i) _
    · exact hst i
  have hsc : (secondCollide es i j).box = (es.getD j default).box ∧
      (secondCollide es i j).cls = (es.getD j default).cls ∧
      (secondCollide es i j).mask = (es.getD j default).mask := by
    unfold secondCollide
    split_ifs with h2
    · exact setState_collide_attrs _ (hst j) _
    · exact ⟨rfl, rfl, rfl⟩
  have hscStable : StableAttrs (secondCollide es i j) := by
    unfold secondCollide
    split_ifs with h2
    · exact stableAttrs_setState _ (hst j) _
    · exact hst j
  unfold innerStep pureEvents
  by_cases hov : Overlaps b1 (es.getD j default).box
  · have hov0 : Overlaps b1 (es0.getD j default).box := by
      rw [← hbj]
      exact hov
    rw [if_pos hov, if_pos hov0]
    refine ⟨?_, ?_, ?_⟩
    · -- attributes preserved through the two `set`s
      have h1 := sameAttrs_set es0 es hsa i (firstCollide es i j)
        hfc.1 hfc.2.1 hfc.2.2
      apply sameAttrs_set es0 _ h1 j (secondCollide es i j)
      · rw [hsc.1, getD_set_ne _ _ _ _ hij]
      · rw [hsc.2.1, getD_set_ne _ _ _ _ hij]
      · rw [hsc.2.2, getD_set_ne _ _ _ _ hij]
    · -- stability preserved
      exact allStable_set _ (allStable_set es hst i _ hfcStable) j _ hscStable
    · -- the emitted events, translated to the initial attributes
      have e1 : ((es.getD i default).mask &&& (es.getD j default).cls ≠ 0) ↔
          ((es0.getD i default).mask &&& (es0.getD j default).cls ≠ 0) := by
        rw [hmi, hcj]
      have e2 : ((es.getD j default).mask &&& (firstCollide es i j).cls ≠ 0) ↔
          ((es0.getD j default).mask &&& (es0.getD i default).cls ≠ 0) := by
        rw [hfc.2.1, hmj, hci]
      exact congrArg (Event.compare i j :: ·)
        (congrArg₂ (· ++ ·) (if_congr e1 rfl rfl) (if_congr e2 rfl rfl))
  · have hov0 : ¬Overlaps b1 (es0.getD j default).box := by
      rw [← hbj]
      exact hov
    rw [if_neg hov, if_neg hov0]
    exact ⟨hsa, hst, rfl⟩

/-- The inner loop's cumulative effect on attributes, stability and
events. -/
theorem innerLoop_spec (es0 : List Ent) (i : ℕ) (b1 : Box) :
    ∀ (js : List ℕ) (es : List Ent), SameAttrs es0 es → AllStable es →
    (∀ j ∈ js, i ≠ j) →
    SameAttrs es0 ((innerLoop i b1 es js).1) ∧
    AllStable ((innerLoop i b1 es js).1) ∧
    (innerLoop i b1 es js).2 = (js.map (pureEvents es0 b1 i)).flatten := by
  intro js
  induction js with
  | nil => exact fun es hsa hst _ => ⟨hsa, hst, rfl⟩
  | cons j js ih =>
    intro es hsa hst hij
    obtain ⟨hsa1, hst1, hev1⟩ :=
      innerStep_spec es0 es hsa hst i j b1 (hij j (by simp))
    obtain ⟨hsa2, hst2, hev2⟩ :=
      ih ((innerStep i b1 es j).1) hsa1 hst1 (fun j' hj' => hij j' (by simp [hj']))
    refine ⟨hsa2, hst2, ?_⟩
    show ((innerStep i b1 es j).2 ++
      (innerLoop i b1 ((innerStep i b1 es j).1) js).2) = _
    rw [hev1, hev2]
    simp

/-- The outer loop's cumulative effect. -/
theorem outerLoop_spec (es0 : List Ent) (n : ℕ) :
    ∀ (idxs : List ℕ) (es : List Ent), SameAttrs es0 es → AllStable es →
    SameAttrs es0 ((outerLoop es idxs n).1) ∧
    AllStable ((outerLoop es idxs n).1) ∧
    (outerLoop es idxs n).2 = (idxs.map (fun i =>
      ((List.range' (i + 1) (n - (i + 1))).map
        (pureEvents es0 (es0.getD i default).box i)).flatten)).flatten := by
  intro idxs
  induction idxs with
  | nil => exact fun es hsa hst => ⟨hsa, hst, rfl⟩
  | cons i idxs ih =>
    intro es hsa hst
    have hb1 : (es.getD i default).box = (es0.getD i default).box := (hsa.2 i).1
    have hrange : ∀ j ∈ List.range' (i + 1) (n - (i + 1)), i ≠ j := by
      intro j hj
      rw [List.mem_range'] at hj
      obtain ⟨k, _, rfl⟩ := hj
      omega
    obtain ⟨hsa1, hst1, hev1⟩ := innerLoop_spec es0 i ((es.getD i default).box)
      (List.range' (i + 1) (n - (i + 1))) es hsa hst hrange
    obtain ⟨hsa2, hst2, hev2⟩ :=
      ih ((innerLoop i ((es.getD i default).box) es
        (List.range' (i + 1) (n - (i + 1)))).1) hsa1 hst1
    refine ⟨hsa2, hst2, ?_⟩
    show ((innerLoop i ((es.getD i default).box) es
        (List.range' (i + 1) (n - (i + 1)))).2 ++
      (outerLoop (innerLoop i ((es.getD i default).box) es
        (List.range' (i + 1) (n - (i + 1)))).1 idxs n).2) = _
    rw [hev1, hev2, hb1]
    simp

/-- With attribute-stable entities, the collision pass emits exactly the
trace determined by the initial attributes. -/
theorem handleCollisions_trace (es0 es1 : List Ent) (tr : List Event)
    (hst : ∀ e ∈ es0, StableAttrs e)
    (h : handleCollisions es0 = some (es1, tr)) : tr = pureTrace es0 := by
  unfold handleCollisions at h
  cases hn : es0.length with
  | zero =>
    rw [hn] at h
    exact absurd h (by simp)
  | succ n =>
    rw [hn] at h
    have h' := Option.some.inj h
    obtain ⟨hsa, hstl, hev⟩ := outerLoop_spec es0 (n + 1) (List.range n) es0
      (sameAttrs_refl es0) (allStable_of_mem es0 hst)
    have htr : tr = (outerLoop es0 (List.range n) (n + 1)).2 :=
      (congrArg Prod.snd h').symm
    rw [htr, hev]
    unfold pureTrace
    rw [hn]
    simp

/-- Symmetry of the AABB overlap test. -/
theorem overlaps_symm {a b : Box} (h : Overlaps a b) : Overlaps b a := by
  obtain ⟨x1, y1, w1, h1⟩ := a
  obtain ⟨x2, y2, w2, h2⟩ := b
  unfold Overlaps at *
  exact ⟨h.2.1, h.1, h.2.2.2, h.2.2.1⟩

/-- Which `collide` invocations appear among the events of one pair. -/
theorem mem_pureEvents_collide (es0 : List Ent) (b1 : Box) (i j p q : ℕ) :
    Event.collide p q ∈ pureEvents es0 b1 i j ↔
      (Overlaps b1 (es0.getD j default).box ∧
        ((p = i ∧ q = j ∧
          (es0.getD i default).mask &&& (es0.getD j default).cls ≠ 0) ∨
         (p = j ∧ q = i ∧
          (es0.getD j default).mask &&& (es0.getD i default).cls ≠ 0))) := by
  unfold pureEvents
  by_cases hov : Overlaps b1 (es0.getD j default).box <;>
    by_cases h1 : (es0.getD i default).mask &&& (es0.getD j default).cls ≠ 0 <;>
    by_cases h2 : (es0.getD j default).mask &&& (es0.getD i default).cls ≠ 0 <;>
    simp [hov, h1, h2] <;>
    tauto

/-- Membership of a `collide` invocation in the full pure trace, for a pair
with overlapping boxes. -/
theorem mem_pureTrace_collide (es0 : List Ent) (p q : ℕ)
    (hp : p < es0.length) (hq : q < es0.length) (hpq : p ≠ q)
    (hov : Overlaps (es0.getD p default).box (es0.getD q default).box) :
    Event.collide p q ∈ pureTrace es0 ↔
      (es0.getD p default).mask &&& (es0.getD q default).cls ≠ 0 := by
  unfold pureTrace
  rw [List.mem_flatten]
  constructor
  · rintro ⟨l, hl, hev⟩
    rw [List.mem_map] at hl
    obtain ⟨i, _, rfl⟩ := hl
    rw [List.mem_flatten] at hev
    obtain ⟨l2, hl2, hev2⟩ := hev
    rw [List.mem_map] at hl2
    obtain ⟨j, _, rfl⟩ := hl2
    rw [mem_pureEvents_collide] at hev2
    obtain ⟨_, hcase⟩ := hev2
    rcases hcase with ⟨rfl, rfl, hmask⟩ | ⟨rfl, rfl, hmask⟩ <;> exact hmask
  · intro hmask
    rcases Nat.lt_or_ge p q with hlt | hge
    · refine ⟨_, List.mem_map_of_mem _
        (List.mem_range.mpr (show p < es0.length - 1 by omega)), ?_⟩
      rw [List.mem_flatten]
      refine ⟨pureEvents es0 (es0.getD p default).box p q,
        List.mem_map_of_mem _
          (show q ∈ List.range' (p + 1) (es0.length - (p + 1)) by
            rw [List.mem_range']
            exact ⟨q - (p + 1), by omega, by omega⟩), ?_⟩
      rw [mem_pureEvents_collide]
      exact ⟨hov, Or.inl ⟨rfl, rfl, hmask⟩⟩
    · have hlt : q < p := by omega
      refine ⟨_, List.mem_map_of_mem _
        (List.mem_range.mpr (show q < es0.length - 1 by omega)), ?_⟩
      rw [List.mem_flatten]
      refine ⟨pureEvents es0 (es0.getD q default).box q p,
        List.mem_map_of_mem _
          (show p ∈ List.range' (q + 1) (es0.length - (q + 1)) by
            rw [List.mem_range']
            exact ⟨p - (q + 1), by omega, by omega⟩), ?_⟩
      rw [mem_pureEvents_collide]
      exact ⟨overlaps_symm hov, Or.inr ⟨rfl, rfl, hmask⟩⟩

/-- C1 (counterexample): the claim fails on the code because a `collide`
callback may change a bounding box mid-pass.  In the collection
`[cexArrow2, cexPlayer, cexArrow1]`, the boxes of `cexArrow1` (index 2) and
`cexPlayer` (index 1) overlap and `cexArrow1.mask & cexPlayer.class ≠ 0`,
yet `cexArrow1.collide(cexPlayer)` is never invoked: the pair (0,1) runs
first, the player's `collide` marks it killed, its box becomes the corpse
silhouette, and the pair (1,2) then fails the overlap test. -/
theorem collision_symmetry_counterexample :
    (handleCollisions [cexArrow2, cexPlayer, cexArrow1]).map Prod.snd =
      some [Event.compare 0 1, Event.collide 0 1, Event.collide 1 0,
            Event.compare 0 2, Event.compare 1 2] ∧
    Overlaps ([cexArrow2, cexPlayer, cexArrow1].getD 2 default).box
      ([cexArrow2, cexPlayer, cexArrow1].getD 1 default).box ∧
    ([cexArrow2, cexPlayer, cexArrow1].getD 2 default).mask &&&
      ([cexArrow2, cexPlayer, cexArrow1].getD 1 default).cls ≠ 0 ∧
    Event.collide 2 1 ∉
      [Event.compare 0 1, Event.collide 0 1, Event.collide 1 0,
       Event.compare 0 2, Event.compare 1 2] := by
  refine ⟨?_, ?_, by decide, by decide⟩
  · with_unfolding_all rfl
  · show Overlaps (98, 96, 4, 4) (95, 95, 10, 15)
    unfold Overlaps
    norm_num

/-- C1 (amended): provided no participating entity's `collide` changes its
bounding box, collision class or mask during the pass (`StableAttrs`), the
collision pass invokes `entities[p].collide(entities[q])` — for any two
distinct positions with overlapping boxes — exactly when
`entities[p].mask & entities[q].class ≠ 0`, independently of which of the
two positions is smaller; both direction tests are evaluated for every
overlapping pair. -/
theorem collision_symmetry_of_stable_attrs (es : List Ent)
    (hst : ∀ e ∈ es, StableAttrs e) (es1 : List Ent) (tr : List Event)
    (h : handleCollisions es = some (es1, tr)) (p q : ℕ)
    (hp : p < es.length) (hq : q < es.length) (hpq : p ≠ q)
    (hov : Overlaps (es.getD p default).box (es.getD q default).box) :
    Event.collide p q ∈ tr ↔
      (es.getD p default).mask &&& (es.getD q default).cls ≠ 0 := by
  rw [handleCollisions_trace es es1 tr hst h]
  exact mem_pureTrace_collide es p q hp hq hpq hov

theorem collision_symmetry_of_stable_attrs_witness :
    (Event.collide 0 1 ∈
      [Event.compare 0 1, Event.collide 0 1, Event.collide 1 0] ↔
      ([symE1, symE2].getD 0 default).mask &&&
        ([symE1, symE2].getD 1 default).cls ≠ 0) ∧
    (Event.collide 1 0 ∈
      [Event.compare 0 1, Event.collide 0 1, Event.collide 1 0] ↔
      ([symE1, symE2].getD 1 default).mask &&&
        ([symE1, symE2].getD 0 default).cls ≠ 0) := by
  have hst : ∀ e ∈ [symE1, symE2], StableAttrs e := by
    intro e he
    rcases List.mem_cons.mp he with rfl | he'
    · exact fun s snap => ⟨rfl, rfl, rfl⟩
    · rcases List.mem_cons.mp he' with rfl | he''
      · exact fun s snap => ⟨rfl, rfl, rfl⟩
      · cases he''
  have hov01 : Overlaps ([symE1, symE2].getD 0 default).box
      ([symE1, symE2].getD 1 default).box := by
    show Overlaps (0, 0, 10, 10) (5, 5, 10, 10)
    unfold Overlaps
    norm_num
  have hc : handleCollisions [symE1, symE2] = some ([symE1, symE2],
      [Event.compare 0 1, Event.collide 0 1, Event.collide 1 0]) := by
    with_unfolding_all rfl
  constructor
  · exact collision_symmetry_of_stable_attrs [symE1, symE2] hst _ _ hc 0 1
      (by decide) (by decide) (by decide) hov01
  · exact collision_symmetry_of_stable_attrs [symE1, symE2] hst _ _ hc 1 0
      (by decide) (by decide) (by decide) (overlaps_symm hov01)

/-! ### Where the collision-pass events can come from -/

theorem innerStep_events (i : ℕ) (b1 : Box) (es : List Ent) (j : ℕ) :
    ∀ ev ∈ (innerStep i b1 es j).2,
      ev = Event.compare i j ∨ ev = Event.collide i j ∨ ev = Event.collide j i := by
  intro ev hev
  unfold innerStep at hev
  split_ifs at hev <;> simp at hev <;> tauto

theorem innerLoop_events (i : ℕ) (b1 : Box) :
    ∀ (js : List ℕ) (es : List Ent) (ev : Event),
      ev ∈ (innerLoop i b1 es js).2 →
      ∃ j ∈ js,
        ev = Event.compare i j ∨ ev = Event.collide i j ∨ ev = Event.collide j i := by
  intro js
  induction js with
  | nil =>
    intro es ev hev
    cases hev
  | cons j js ih =>
    intro es ev hev
    have hev' : ev ∈ (innerStep i b1 es j).2 ++
        (innerLoop i b1 ((innerStep i b1 es j).1) js).2 := hev
    rcases List.mem_append.mp hev' with hl | hr
    · exact ⟨j, by simp, innerStep_events i b1 es j ev hl⟩
    · obtain ⟨j', hj', hcase⟩ := ih _ ev hr
      exact ⟨j', by simp [hj'], hcase⟩

theorem outerLoop_events (n : ℕ) :
    ∀ (idxs : List ℕ) (es : List Ent) (ev : Event),
      ev ∈ (outerLoop es idxs n).2 →
      ∃ i ∈ idxs, ∃ j, i + 1 ≤ j ∧ j < n ∧
        (ev = Event.compare i j ∨ ev = Event.collide i j ∨ ev = Event.collide j i) := by
  intro idxs
  induction idxs with
  | nil =>
    intro es ev hev
    cases hev
  | cons i idxs ih =>
    intro es ev hev
    have hev' : ev ∈ (innerLoop i ((es.getD i default).box) es
        (List.range' (i + 1) (n - (i + 1)))).2 ++
        (outerLoop (innerLoop i ((es.getD i default).box) es
          (List.range' (i + 1) (n - (i + 1)))).1 idxs n).2 := hev
    rcases List.mem_append.mp hev' with hl | hr
    · obtain ⟨j, hj, hcase⟩ := innerLoop_events i _ _ es ev hl
      rw [List.mem_range'] at hj
      obtain ⟨k, hk, rfl⟩ := hj
      exact ⟨i, by simp, i + 1 + 1 * k, by omega, by omega, hcase⟩
    · obtain ⟨i', hi', j', h1, h2, hcase⟩ := ih _ ev hr
      exact ⟨i', by simp [hi'], j', h1, h2, hcase⟩

/-- Every event of the collision pass names two indices of the original
collection: entities appended later (e.g. spawned during the same frame's
update pass) take part in no comparison and receive no `collide` call. -/
theorem handleCollisions_event_indices (es es1 : List Ent) (tr : List Event)
    (h : handleCollisions es = some (es1, tr)) (i j : ℕ)
    (hmem : Event.compare i j ∈ tr ∨ Event.collide i j ∈ tr) :
    i < es.length ∧ j < es.length := by
  unfold handleCollisions at h
  cases hn : es.length with
  | zero =>
    rw [hn] at h
    exact absurd h (by simp)
  | succ n =>
    rw [hn] at h
    have htr : tr = (outerLoop es (List.range n) (n + 1)).2 :=
      (congrArg Prod.snd (Option.some.inj h)).symm
    rcases hmem with hm | hm <;>
      · rw [htr] at hm
        obtain ⟨i', hi', j', hj1, hj2, hcase⟩ :=
          outerLoop_events (n + 1) (List.range n) es _ hm
        have hi'n : i' < n := List.mem_range.mp hi'
        rcases hcase with hc | hc | hc <;>
          simp only [Event.compare.injEq, Event.collide.injEq,
            reduceCtorEq] at hc <;>
          omega

/-! ### The collision pass only overwrites private states -/

theorem setOnly_refl (es : List Ent) : SetOnly es es :=
  ⟨rfl, fun k => ⟨(es.getD k default).state, (Ent.setState_self _).symm⟩⟩

theorem setOnly_set (es0 es : List Ent) (h : SetOnly es0 es) (k : ℕ) (e : Ent)
    (he : ∃ s, e = (es0.getD k default).setState s) :
    SetOnly es0 (es.set k e) := by
  obtain ⟨hlen, hpt⟩ := h
  refine ⟨by simpa using hlen, fun m => ?_⟩
  by_cases hm : k = m
  · subst hm
    by_cases hk : k < es.length
    · rw [getD_set_lt _ _ _ hk]
      exact he
    · rw [getD_set_ge _ _ _ (by omega)]
      exact hpt k
  · rw [getD_set_ne _ _ _ _ hm]
    exact hpt m

theorem setOnly_innerStep (es0 es : List Ent) (h : SetOnly es0 es) (i : ℕ)
    (b1 : Box) (j : ℕ) : SetOnly es0 ((innerStep i b1 es j).1) := by
  by_cases hov : Overlaps b1 (es.getD j default).box
  · have hgoal : (innerStep i b1 es j).1 =
        (es.set i (firstCollide es i j)).set j (secondCollide es i j) := by
      unfold innerStep
      rw [if_pos hov]
    rw [hgoal]
    apply setOnly_set
    · apply setOnly_set es0 es h i
      obtain ⟨s, hs⟩ := h.2 i
      unfold firstCollide
      split_ifs with h1
      · exact ⟨_, by rw [hs, Ent.setState_setState]⟩
      · exact ⟨s, hs⟩
    · obtain ⟨s, hs⟩ := h.2 j
      unfold secondCollide
      split_ifs with h2
      · exact ⟨_, by rw [hs, Ent.setState_setState]⟩
      · exact ⟨s, hs⟩
  · have hgoal : (innerStep i b1 es j).1 = es := by
      unfold innerStep
      rw [if_neg hov]
    rw [hgoal]
    exact h

theorem setOnly_innerLoop (es0 : List Ent) (i : ℕ) (b1 : Box) :
    ∀ (js : List ℕ) (es : List Ent), SetOnly es0 es →
      SetOnly es0 ((innerLoop i b1 es js).1) := by
  intro js
  induction js with
  | nil => exact fun es h => h
  | cons j js ih =>
    intro es h
    exact ih _ (setOnly_innerStep es0 es h i b1 j)

theorem setOnly_outerLoop (es0 : List Ent) (n : ℕ) :
    ∀ (idxs : List ℕ) (es : List Ent), SetOnly es0 es →
      SetOnly es0 ((outerLoop es idxs n).1) := by
  intro idxs
  induction idxs with
  | nil => exact fun es h => h
  | cons i idxs ih =>
    intro es h
    exact ih _ (setOnly_innerLoop es0 i _ _ es h)

theorem handleCollisions_setOnly (es es1 : List Ent) (tr : List Event)
    (h : handleCollisions es = some (es1, tr)) : SetOnly es es1 := by
  unfold handleCollisions at h
  cases hn : es.length with
  | zero =>
    rw [hn] at h
    exact absurd h (by simp)
  | succ n =>
    rw [hn] at h
    have hes1 : es1 = (outerLoop es (List.range n) (n + 1)).1 :=
      (congrArg Prod.fst (Option.some.inj h)).symm
    rw [hes1]
    exact setOnly_outerLoop es (n + 1) (List.range n) es (setOnly_refl es)

theorem setOnly_forall₂ (es0 es : List Ent) (h : SetOnly es0 es) :
    List.Forall₂ (fun a b => ∃ s, b = a.setState s) es0 es := by
  rw [List.forall₂_iff_get]
  refine ⟨h.1.symm, fun i h1 h2 => ?_⟩
  obtain ⟨s, hs⟩ := h.2 i
  rw [← getD_of_lt es0 i h1, ← getD_of_lt es i h2]
  exact ⟨s, hs⟩

theorem forall₂_append_cons_split {R : Ent → Ent → Prop} :
    ∀ (pre : List Ent) (e : Ent) (post l : List Ent),
      List.Forall₂ R (pre ++ e :: post) l →
      ∃ l1 b l2, l = l1 ++ b :: l2 ∧ List.Forall₂ R pre l1 ∧ R e b ∧
        List.Forall₂ R post l2 := by
  intro pre
  induction pre with
  | nil =>
    intro e post l h
    cases h with
    | cons hR htail => exact ⟨[], _, _, rfl, List.Forall₂.nil, hR, htail⟩
  | cons a pre ih =>
    intro e post l h
    cases h with
    | cons hR htail =>
      obtain ⟨l1, b, l2, rfl, h1, h2, h3⟩ := ih e post _ htail
      exact ⟨_ :: l1, b, l2, rfl, List.Forall₂.cons hR h1, h2, h3⟩

theorem forall₂_mem_right {R : Ent → Ent → Prop} {l1 l2 : List Ent}
    (h : List.Forall₂ R l1 l2) : ∀ b ∈ l2, ∃ a ∈ l1, R a b := by
  induction h with
  | nil =>
    intro b hb
    cases hb
  | cons hR _ ih =>
    intro b hb
    rcases List.mem_cons.mp hb with rfl | hb'
    · exact ⟨_, List.mem_cons_self _ _, hR⟩
    · obtain ⟨a, ha, hr⟩ := ih b hb'
      exact ⟨a, List.mem_cons_of_mem _ ha, hr⟩

theorem Ent.setState_live (e : Ent) (s : ℕ) : (e.setState s).live = e.liveFn s := by
  unfold Ent.live
  rw [Ent.setState_liveFn, Ent.setState_state]

theorem updatePass_eq (l : List Ent) :
    updatePass l = (l.map (fun x => x.setState (x.updateFn x.state).1),
      (l.map (fun x => (x.updateFn x.state).2)).flatten) := by
  induction l with
  | nil => rfl
  | cons x l ih => simp [updatePass, ih]

/-- C2: if one entity's `update` pushes exactly one (live) entity onto the
spawn list and its `is_live` then reports `false`, while every other entity
stays live and spawns nothing, then one full frame leaves the collection
size unchanged (one removed, one added), and every comparison and `collide`
invocation of that frame's collision pass names only indices of the
original collection — the newly spawned entity (appended after the pass, at
an index `≥` the original length) takes part in none of them. -/
theorem frame_spawn_one_replaces_dead (pre post : List Ent) (e spawnE : Ent)
    (hspawn : ∀ s, (e.updateFn s).2 = [spawnE])
    (hedead : ∀ s, e.liveFn ((e.updateFn s).1) = false)
    (hlive : ∀ x ∈ pre ++ post, ∀ s,
      (x.updateFn s).2 = [] ∧ x.liveFn ((x.updateFn s).1) = true)
    (hspawnLive : spawnE.live = true) :
    ∃ res tr, doFrame (pre ++ e :: post) = some (res, tr) ∧
      res.length = (pre ++ e :: post).length ∧
      ∀ i j, (Event.compare i j ∈ tr ∨ Event.collide i j ∈ tr) →
        i < (pre ++ e :: post).length ∧ j < (pre ++ e :: post).length := by
  obtain ⟨es1, tr, hc⟩ :
      ∃ es1 tr, handleCollisions (pre ++ e :: post) = some (es1, tr) := by
    unfold handleCollisions
    cases hn : (pre ++ e :: post).length with
    | zero =>
      rw [List.length_append, List.length_cons] at hn
      omega
    | succ n => exact ⟨_, _, rfl⟩
  obtain ⟨l1, b, l2, hes1, hf1, hfb, hf3⟩ :=
    forall₂_append_cons_split pre e post es1
      (setOnly_forall₂ _ _ (handleCollisions_setOnly _ _ _ hc))
  refine ⟨((updatePass es1).1 ++ (updatePass es1).2).filter (fun x => x.live),
    tr, ?_, ?_, ?_⟩
  · unfold doFrame
    rw [hc]
  · subst hes1
    obtain ⟨sb, rfl⟩ := hfb
    rw [updatePass_eq]
    have hmem1 : ∀ x ∈ l1 ++ l2, ∃ a ∈ pre ++ post, ∃ s, x = a.setState s := by
      intro x hx
      rcases List.mem_append.mp hx with hxin | hxin
      · obtain ⟨a, ha, s, rfl⟩ := forall₂_mem_right hf1 x hxin
        exact ⟨a, List.mem_append_left _ ha, s, rfl⟩
      · obtain ⟨a, ha, s, rfl⟩ := forall₂_mem_right hf3 x hxin
        exact ⟨a, List.mem_append_right _ ha, s, rfl⟩
    have hprops : ∀ x, (∃ a ∈ pre ++ post, ∃ s, x = a.setState s) →
        (x.updateFn x.state).2 = [] ∧
        (x.setState (x.updateFn x.state).1).live = true := by
      rintro x ⟨a, ha, s, rfl⟩
      rw [Ent.setState_updateFn, Ent.setState_state, Ent.setState_setState,
        Ent.setState_live]
      exact ⟨(hlive a ha s).1, (hlive a ha s).2⟩
    have hfl1 : (List.map (fun x => (x.updateFn x.state).2) l1).flatten = [] := by
      rw [List.flatten_eq_nil_iff]
      intro lx hlx
      rw [List.mem_map] at hlx
      obtain ⟨x, hx, rfl⟩ := hlx
      exact (hprops x (hmem1 x (List.mem_append_left _ hx))).1
    have hfl2 : (List.map (fun x => (x.updateFn x.state).2) l2).flatten = [] := by
      rw [List.flatten_eq_nil_iff]
      intro lx hlx
      rw [List.mem_map] at hlx
      obtain ⟨x, hx, rfl⟩ := hlx
      exact (hprops x (hmem1 x (List.mem_append_right _ hx))).1
    have hgb : ((e.setState sb).updateFn (e.setState sb).state).2 = [spawnE] := by
      rw [Ent.setState_updateFn, Ent.setState_state]
      exact hspawn sb
    have hbdead : (((e.setState sb).setState
        ((e.setState sb).updateFn (e.setState sb).state).1)).live = false := by
      rw [Ent.setState_updateFn, Ent.setState_state, Ent.setState_setState,
        Ent.setState_live]
      exact hedead sb
    have hlive1 : (List.map (fun x => x.setState (x.updateFn x.state).1)
        l1).filter (fun x => x.live) =
        List.map (fun x => x.setState (x.updateFn x.state).1) l1 := by
      rw [List.filter_eq_self]
      intro x hx
      rw [List.mem_map] at hx
      obtain ⟨y, hy, rfl⟩ := hx
      exact (hprops y (hmem1 y (List.mem_append_left _ hy))).2
    have hlive2 : (List.map (fun x => x.setState (x.updateFn x.state).1)
        l2).filter (fun x => x.live) =
        List.map (fun x => x.setState (x.updateFn x.state).1) l2 := by
      rw [List.filter_eq_self]
      intro x hx
      rw [List.mem_map] at hx
      obtain ⟨y, hy, rfl⟩ := hx
      exact (hprops y (hmem1 y (List.mem_append_right _ hy))).2
    simp only [List.map_append, List.map_cons, List.flatten_append,
      List.flatten_cons, hfl1, hfl2, hgb, List.nil_append, List.append_nil,
      List.filter_append, List.filter_cons, hlive1, hlive2, hbdead,
      hspawnLive, Bool.false_eq_true, if_false, if_true, List.filter_nil]
    have hl1 : l1.length = pre.length := (List.Forall₂.length_eq hf1).symm
    have hl2 : l2.length = post.length := (List.Forall₂.length_eq hf3).symm
    simp only [List.length_append, List.length_cons, List.length_map,
      List.length_nil, hl1, hl2]
    omega
  · intro i j hmem
    exact handleCollisions_event_indices _ _ _ hc i j hmem

theorem frame_spawn_one_replaces_dead_witness :
    ∃ res tr, doFrame ([] ++ c2dying :: []) = some (res, tr) ∧
      res.length = ([] ++ c2dying :: [] : List Ent).length ∧
      ∀ i j, (Event.compare i j ∈ tr ∨ Event.collide i j ∈ tr) →
        i < ([] ++ c2dying :: [] : List Ent).length ∧
        j < ([] ++ c2dying :: [] : List Ent).length :=
  frame_spawn_one_replaces_dead [] [] c2dying c2spawn
    (fun _ => rfl) (fun _ => rfl) (fun x hx => by simp at hx) rfl

/-! ### Byte-level round-trip lemmas for the tile-map format -/

theorem readExact_append (xs ys : List ℕ) :
    readExact xs.length (xs ++ ys) = some (xs, ys) := by
  unfold readExact
  rw [if_pos (by simp), List.take_left, List.drop_left]

theorem readExact_of_length (n : ℕ) (xs ys : List ℕ) (h : xs.length = n) :
    readExact n (xs ++ ys) = some (xs, ys) := by
  subst h
  exact readExact_append xs ys

theorem leVal_encodeU32 (n : ℕ) (h : n < 2 ^ 32) : leVal (encodeU32 n) = n := by
  unfold leVal encodeU32
  simp only [List.foldr]
  omega

theorem readU32_encode (n : ℕ) (h : n < 2 ^ 32) (rest : List ℕ) :
    readU32 (encodeU32 n ++ rest) = some (n, rest) := by
  unfold readU32
  rw [readExact_of_length 4 (encodeU32 n) rest rfl]
  simp [leVal_encodeU32 n h]

theorem readI32_encode (v : ℤ) (h1 : -2 ^ 31 ≤ v) (h2 : v < 2 ^ 31)
    (rest : List ℕ) : readI32 (encodeI32 v ++ rest) = some (v, rest) := by
  unfold readI32 encodeI32
  have hre := readExact_of_length 4 (encodeU32 ((v % 2 ^ 32).toNat)) rest rfl
  rw [hre]
  have hmod0 : 0 ≤ v % 2 ^ 32 := Int.emod_nonneg v (by norm_num)
  have hmod1 : v % 2 ^ 32 < 2 ^ 32 := Int.emod_lt_of_pos v (by norm_num)
  rw [Option.map_some']
  rw [leVal_encodeU32 _ (by omega)]
  have hdec : decodeI32bits ((v % 2 ^ 32).toNat) = v := by
    unfold decodeI32bits
    split_ifs with hc <;> omega
  rw [hdec]

theorem readI32_encodeU32 (n : ℕ) (h : n < 2 ^ 31) (rest : List ℕ) :
    readI32 (encodeU32 n ++ rest) = some ((n : ℤ), rest) := by
  unfold readI32
  rw [readExact_of_length 4 (encodeU32 n) rest rfl]
  rw [Option.map_some']
  rw [leVal_encodeU32 _ (by omega)]
  unfold decodeI32bits
  rw [if_pos (by exact_mod_cast h)]

/-- Reading back the atlas rectangles written for `paths` recovers exactly
the resolved entries and leaves the remaining bytes untouched. -/
theorem readAtlas_round (coords : List (ℕ × ℕ × ℕ × ℕ × ℕ))
    (hcoords : ∀ c ∈ coords, c.2.1 < 2 ^ 32 ∧ c.2.2.1 < 2 ^ 32 ∧
      c.2.2.2.1 < 2 ^ 32 ∧ c.2.2.2.2 < 2 ^ 32) :
    ∀ (paths : List ℕ) (ab : List ℕ)
      (entries : List (ℕ × ℕ × ℕ × ℕ × ℕ × ℕ × ℤ × ℤ)),
      writeAtlasRects paths coords = some ab →
      resolveAtlas paths coords = some entries →
      ∀ rest : List ℕ,
        readAtlas paths.length (ab ++ rest) = some (entries, rest) := by
  intro paths
  induction paths with
  | nil =>
    intro ab entries hw hr rest
    simp only [writeAtlasRects, Option.some.injEq] at hw
    simp only [resolveAtlas, Option.some.injEq] at hr
    subst hw
    subst hr
    rfl
  | cons p paths ih =>
    intro ab entries hw hr rest
    unfold writeAtlasRects at hw
    unfold resolveAtlas at hr
    cases hfind : coords.find? (fun c => c.1 == p) with
    | none =>
      rw [hfind] at hw
      exact absurd hw (by simp)
    | some c =>
      obtain ⟨pc, l, t, r, b⟩ := c
      rw [hfind] at hw hr
      cases hwt : writeAtlasRects paths coords with
      | none =>
        rw [hwt] at hw
        exact absurd hw (by simp)
      | some ab' =>
        rw [hwt] at hw
        cases hrt : resolveAtlas paths coords with
        | none =>
          rw [hrt] at hr
          exact absurd hr (by simp)
        | some entries' =>
          rw [hrt] at hr
          simp only [Option.map_some', Option.some.injEq] at hw hr
          subst hw
          subst hr
          have hc := hcoords (pc, l, t, r, b) (List.mem_of_find?_eq_some hfind)
          obtain ⟨hl, ht, hr4, hb⟩ := hc
          show readAtlas (paths.length + 1) _ = _
          unfold readAtlas
          have e1 := readU32_encode l hl
            (encodeU32 t ++ encodeU32 r ++ encodeU32 b ++ ab' ++ rest)
          have e2 := readU32_encode t ht (encodeU32 r ++ encodeU32 b ++ ab' ++ rest)
          have e3 := readU32_encode r hr4 (encodeU32 b ++ ab' ++ rest)
          have e4 := readU32_encode b hb (ab' ++ rest)
          have e5 := ih ab' entries' hwt hrt rest
          simp only [List.append_assoc] at e1 e2 e3 e4 ⊢
          rw [e1]
          simp only [Option.bind_eq_bind, Option.some_bind]
          rw [e2]
          simp only [Option.bind_eq_bind, Option.some_bind]
          rw [e3]
          simp only [Option.bind_eq_bind, Option.some_bind]
          rw [e4]
          simp only [Option.bind_eq_bind, Option.some_bind]
          rw [e5]
          simp only [Option.bind_eq_bind, Option.some_bind]

/-- In a zero-padded name buffer whose name bytes are all non-zero, the
first zero sits exactly at the end of the name. -/
theorem findIdx_zero_padded (name : List ℕ) (hnz : ∀ b ∈ name, b ≠ 0)
    (k : ℕ) (hk : 0 < k) :
    (name ++ List.replicate k 0).findIdx? (· == 0) = some name.length := by
  induction name with
  | nil =>
    cases k with
    | zero => omega
    | succ k =>
      simp [List.replicate_succ, List.findIdx?_cons]
  | cons a name ih =>
    have ha : (a == 0) = false := by
      simpa using hnz a (by simp)
    have ih' := ih (fun b hb => hnz b (by simp [hb]))
    simp only [List.cons_append, List.findIdx?_cons, ha, Bool.false_eq_true,
      if_false, List.findIdx?_succ, ih', Option.map_some', List.length_cons]

/-- Reading back the object records written for `objs` recovers them. -/
theorem readObjects_round :
    ∀ (objs : List (List ℕ × ℤ × ℤ)) (ob : List ℕ),
      writeObjectList objs = some ob →
      (∀ o ∈ objs, o.1.length ≤ 31 ∧ (∀ b ∈ o.1, b ≠ 0) ∧
        -2 ^ 31 ≤ o.2.1 ∧ o.2.1 < 2 ^ 31 ∧ -2 ^ 31 ≤ o.2.2 ∧ o.2.2 < 2 ^ 31) →
      ∀ rest : List ℕ,
        readObjects objs.length (ob ++ rest) = some (objs, rest) := by
  intro objs
  induction objs with
  | nil =>
    intro ob hw _ rest
    simp only [writeObjectList, Option.some.injEq] at hw
    subst hw
    rfl
  | cons o objs ih =>
    obtain ⟨name, x, y⟩ := o
    intro ob hw hcond rest
    obtain ⟨h31, hnz, hx0, hx1, hy0, hy1⟩ := hcond (name, x, y) (by simp)
    replace h31 : name.length ≤ 31 := h31
    replace hnz : ∀ b ∈ name, b ≠ 0 := hnz
    replace hx0 : -2 ^ 31 ≤ x := hx0
    replace hx1 : x < 2 ^ 31 := hx1
    replace hy0 : -2 ^ 31 ≤ y := hy0
    replace hy1 : y < 2 ^ 31 := hy1
    unfold writeObjectList at hw
    rw [if_pos (by omega : name.length ≤ 32)] at hw
    cases hwt : writeObjectList objs with
    | none =>
      rw [hwt] at hw
      exact absurd hw (by simp)
    | some ob' =>
      rw [hwt] at hw
      simp only [Option.map_some', Option.some.injEq] at hw
      subst hw
      show readObjects (objs.length + 1) _ = _
      unfold readObjects
      have hnamelen : (name ++ List.replicate (32 - name.length) 0).length = 32 := by
        simp [List.length_replicate]
        omega
      have e0 := readExact_of_length 32 (name ++ List.replicate (32 - name.length) 0)
        (encodeI32 x ++ encodeI32 y ++ ob' ++ rest) hnamelen
      have efind := findIdx_zero_padded name hnz (32 - name.length) (by omega)
      have etake : (name ++ List.replicate (32 - name.length) 0).take name.length =
          name := List.take_left _ _
      have e1 := readI32_encode x hx0 hx1 (encodeI32 y ++ ob' ++ rest)
      have e2 := readI32_encode y hy0 hy1 (ob' ++ rest)
      have e3 := ih ob' hwt (fun o ho => hcond o (by simp [ho])) rest
      simp only [List.append_assoc] at e0 e1 e2 ⊢
      rw [e0]
      simp only [Option.bind_eq_bind, Option.some_bind]
      rw [efind]
      simp only [Option.bind_eq_bind, Option.some_bind]
      rw [etake, e1]
      simp only [Option.bind_eq_bind, Option.some_bind]
      rw [e2]
      simp only [Option.bind_eq_bind, Option.some_bind]
      rw [e3]
      simp only [Option.bind_eq_bind, Option.some_bind]

theorem atlas_writes_some (coords : List (ℕ × ℕ × ℕ × ℕ × ℕ)) :
    ∀ paths : List ℕ,
      (∀ p ∈ paths, (coords.find? (fun c => c.1 == p)).isSome) →
      ∃ ab entries, writeAtlasRects paths coords = some ab ∧
        resolveAtlas paths coords = some entries := by
  intro paths
  induction paths with
  | nil => exact fun _ => ⟨[], [], rfl, rfl⟩
  | cons p paths ih =>
    intro h
    obtain ⟨ab, entries, hw, hr⟩ := ih (fun q hq => h q (by simp [hq]))
    have hp := h p (by simp)
    cases hfind : coords.find? (fun c => c.1 == p) with
    | none =>
      rw [hfind] at hp
      cases hp
    | some c =>
      obtain ⟨pc, l, t, r, b⟩ := c
      refine ⟨encodeU32 l ++ encodeU32 t ++ encodeU32 r ++ encodeU32 b ++ ab,
        (l, t, r, b, 64, 64, 0, 0) :: entries, ?_, ?_⟩
      · unfold writeAtlasRects
        rw [hfind, hw]
        rfl
      · unfold resolveAtlas
        rw [hfind, hr]
        rfl

theorem objects_write_some :
    ∀ objs : List (List ℕ × ℤ × ℤ),
      (∀ o ∈ objs, o.1.length ≤ 31) →
      ∃ ob, writeObjectList objs = some ob := by
  intro objs
  induction objs with
  | nil => exact fun _ => ⟨[], rfl⟩
  | cons o objs ih =>
    obtain ⟨name, x, y⟩ := o
    intro h
    obtain ⟨ob, hw⟩ := ih (fun q hq => h q (by simp [hq]))
    have h31 : name.length ≤ 31 := h (name, x, y) (by simp)
    refine ⟨(name ++ List.replicate (32 - name.length) 0) ++
      encodeI32 x ++ encodeI32 y ++ ob, ?_⟩
    unfold writeObjectList
    rw [if_pos (by omega), hw]
    rfl

/-- C7: writing a tile-map model through the binary serializer and
re-loading the bytes through the engine's `TileMap::new` yields an
identical grid, identical flags, identical atlas coordinates (here: the
resolved rectangles of the model's image paths) and an identical object
list, together with the dimensions and player start, for every model whose
dimensions and object names fit the format. -/
theorem tile_map_round_trip (info : TileMapInfo)
    (coords : List (ℕ × ℕ × ℕ × ℕ × ℕ))
    (hw0 : 0 ≤ info.width) (hw1 : info.width < 2 ^ 31)
    (hh0 : 0 ≤ info.height) (hh1 : info.height < 2 ^ 31)
    (hpsx0 : -2 ^ 31 ≤ info.playerStartX) (hpsx1 : info.playerStartX < 2 ^ 31)
    (hpsy0 : -2 ^ 31 ≤ info.playerStartY) (hpsy1 : info.playerStartY < 2 ^ 31)
    (hnum : info.imagePaths.length < 2 ^ 31)
    (hflags : info.tileFlags.length = info.imagePaths.length)
    (htiles : info.tileData.length = (info.width * info.height).toNat)
    (hcoords : ∀ c ∈ coords, c.2.1 < 2 ^ 32 ∧ c.2.2.1 < 2 ^ 32 ∧
      c.2.2.2.1 < 2 ^ 32 ∧ c.2.2.2.2 < 2 ^ 32)
    (hpaths : ∀ p ∈ info.imagePaths, (coords.find? (fun c => c.1 == p)).isSome)
    (hobjlen : info.objects.length < 2 ^ 32)
    (hobjs : ∀ o ∈ info.objects, o.1.length ≤ 31 ∧ (∀ b ∈ o.1, b ≠ 0) ∧
      -2 ^ 31 ≤ o.2.1 ∧ o.2.1 < 2 ^ 31 ∧ -2 ^ 31 ≤ o.2.2 ∧ o.2.2 < 2 ^ 31) :
    ∃ bs tm, writeTileMapFile info coords = some bs ∧
      tileMapNew bs = some tm ∧
      tm.width = info.width ∧ tm.height = info.height ∧
      tm.playerStartX = info.playerStartX ∧
      tm.playerStartY = info.playerStartY ∧
      tm.tiles = info.tileData ∧ tm.tileFlags = info.tileFlags ∧
      resolveAtlas info.imagePaths coords = some tm.atlasCoords ∧
      tm.objects = info.objects := by
  obtain ⟨ab, entries, hwa, hra⟩ :=
    atlas_writes_some coords info.imagePaths hpaths
  obtain ⟨ob, hwo⟩ := objects_write_some info.objects
    (fun o ho => (hobjs o ho).1)
  refine ⟨MAGIC ++ encodeI32 info.width ++ encodeI32 info.height ++
    encodeI32 info.playerStartX ++ encodeI32 info.playerStartY ++
    encodeU32 info.imagePaths.length ++ ab ++ info.tileFlags ++
    info.tileData ++ encodeU32 info.objects.length ++ ob,
    { width := info.width, height := info.height, tiles := info.tileData,
      tileFlags := info.tileFlags, atlasCoords := entries,
      objects := info.objects, playerStartX := info.playerStartX,
      playerStartY := info.playerStartY }, ?_, ?_, rfl, rfl, rfl, rfl, rfl,
    rfl, by rw [hra], rfl⟩
  · unfold writeTileMapFile
    rw [hwa, hwo]
    rfl
  · unfold tileMapNew
    have m0 := readExact_of_length 4 MAGIC
      (encodeI32 info.width ++ encodeI32 info.height ++
        encodeI32 info.playerStartX ++ encodeI32 info.playerStartY ++
        encodeU32 info.imagePaths.length ++ ab ++ info.tileFlags ++
        info.tileData ++ encodeU32 info.objects.length ++ ob) rfl
    have m1 := readI32_encode info.width (by omega) hw1
      (encodeI32 info.height ++ encodeI32 info.playerStartX ++
        encodeI32 info.playerStartY ++ encodeU32 info.imagePaths.length ++
        ab ++ info.tileFlags ++ info.tileData ++
        encodeU32 info.objects.length ++ ob)
    have m2 := readI32_encode info.height (by omega) hh1
      (encodeI32 info.playerStartX ++ encodeI32 info.playerStartY ++
        encodeU32 info.imagePaths.length ++ ab ++ info.tileFlags ++
        info.tileData ++ encodeU32 info.objects.length ++ ob)
    have m3 := readI32_encode info.playerStartX hpsx0 hpsx1
      (encodeI32 info.playerStartY ++ encodeU32 info.imagePaths.length ++
        ab ++ info.tileFlags ++ info.tileData ++
        encodeU32 info.objects.length ++ ob)
    have m4 := readI32_encode info.playerStartY hpsy0 hpsy1
      (encodeU32 info.imagePaths.length ++ ab ++ info.tileFlags ++
        info.tileData ++ encodeU32 info.objects.length ++ ob)
    have m5 := readI32_encodeU32 info.imagePaths.length hnum
      (ab ++ info.tileFlags ++ info.tileData ++
        encodeU32 info.objects.length ++ ob)
    have m6 := readAtlas_round coords hcoords info.imagePaths ab entries
      hwa hra (info.tileFlags ++ info.tileData ++
        encodeU32 info.objects.length ++ ob)
    have m7 := readExact_of_length info.imagePaths.length info.tileFlags
      (info.tileData ++ encodeU32 info.objects.length ++ ob) hflags
    have m8 := readExact_of_length (info.width * info.height).toNat
      info.tileData (encodeU32 info.objects.length ++ ob) htiles
    have m9 := readU32_encode info.objects.length hobjlen ob
    have m10 : readObjects info.objects.length ob = some (info.objects, []) := by
      have h10 := readObjects_round info.objects ob hwo hobjs []
      rwa [List.append_nil] at h10
    simp only [List.append_assoc] at m0 m1 m2 m3 m4 m5 m6 m7 m8 m9 ⊢
    rw [m0]
    simp only [Option.bind_eq_bind, Option.some_bind]
    rw [if_neg (show ¬(MAGIC ≠ MAGIC) from fun hcon => hcon rfl)]
    rw [m1]
    simp only [Option.bind_eq_bind, Option.some_bind]
    rw [m2]
    simp only [Option.bind_eq_bind, Option.some_bind]
    rw [m3]
    simp only [Option.bind_eq_bind, Option.some_bind]
    rw [m4]
    simp only [Option.bind_eq_bind, Option.some_bind]
    rw [m5]
    simp only [Option.bind_eq_bind, Option.some_bind]
    rw [if_neg (show ¬((info.imagePaths.length : ℤ) < 0) by omega)]
    rw [show ((info.imagePaths.length : ℤ)).toNat = info.imagePaths.length from
      Int.toNat_natCast _]
    rw [m6]
    simp only [Option.bind_eq_bind, Option.some_bind]
    rw [m7]
    simp only [Option.bind_eq_bind, Option.some_bind]
    rw [if_neg (show ¬(info.width * info.height < 0) from
      not_lt.mpr (mul_nonneg hw0 hh0))]
    rw [m8]
    simp only [Option.bind_eq_bind, Option.some_bind]
    rw [m9]
    simp only [Option.bind_eq_bind, Option.some_bind]
    rw [m10]
    simp only [Option.bind_eq_bind, Option.some_bind]

theorem tile_map_round_trip_witness :
    ∃ bs tm, writeTileMapFile c7info c7coords = some bs ∧
      tileMapNew bs = some tm ∧
      tm.width = c7info.width ∧ tm.height = c7info.height ∧
      tm.playerStartX = c7info.playerStartX ∧
      tm.playerStartY = c7info.playerStartY ∧
      tm.tiles = c7info.tileData ∧ tm.tileFlags = c7info.tileFlags ∧
      resolveAtlas c7info.imagePaths c7coords = some tm.atlasCoords ∧
      tm.objects = c7info.objects :=
  tile_map_round_trip c7info c7coords (by decide) (by decide) (by decide)
    (by decide) (by decide) (by decide) (by decide) (by decide) (by decide)
    (by decide) (by decide) (by decide) (by decide) (by decide) (by decide)

end RustGame
